import Mathlib

/-!
# clisp: values, environments and the evaluator

A shallow embedding of `src/value.c` and `src/env.c`.

* A C `Value` is a tagged record; it becomes the inductive type `Value`, one
  constructor per `ValueType`, with `FUNCTION_TYPE` split into `builtin`
  (the `builtin` pointer is set) and `lambda` (it is `NULL`).
* An `Env` is a record of a parent pointer and an array of
  `ENV_ENTRY_KEY_HASH_MODULO` hash chains; a chain of `EnvEntry` cells is a
  list of `(symbol, value)` pairs.
* The C code mutates the environment in place; here every evaluating function
  takes the environment and returns the new one next to its result.
* Evaluation need not terminate (`while`, recursion), so `value_eval` takes a
  fuel argument; `none` means that the fuel ran out or that the C program has
  no defined behaviour on the input (a field read from a value of another
  variant, an index past the end of an array, an object freed twice).
* Allocation and release of storage are not modelled otherwise: a value is
  what its fields hold.
* `config.h` is not among the sources: its two constants are fields of
  `Config`, together with the behaviour of the external libraries (`stdio`,
  `mpc`) the builtins `input` and `load` call and `value_print` uses. Standard
  output is not part of the state; `value_print` is the string it writes.
-/

namespace Clisp

/-- The arithmetic of `ValueNumber`, the C `double` of value.h. The operations
are kept abstract, so what is proved holds for IEEE-754 doubles as it does for
exact arithmetic. `eq`, `lt`, `le` are the C operators `==`, `<`, `<=`;
`toSize` is the cast `(size_t)x`; `fmt` is the `printf` conversion `%f`. -/
class ValueNumber (N : Type) where
  zero : N
  one : N
  add : N → N → N
  sub : N → N → N
  mul : N → N → N
  div : N → N → N
  neg : N → N
  eq : N → N → Bool
  lt : N → N → Bool
  le : N → N → Bool
  toSize : N → Nat
  fmt : N → String

/-- The enumeration `ValueType` of value.h. -/
inductive ValueType
  | ERROR_TYPE
  | FUNCTION_TYPE
  | NUMBER_TYPE
  | SEXPRESSION_TYPE
  | STRING_TYPE
  | QEXPRESSION_TYPE
  | SYMBOL_TYPE
  deriving DecidableEq, Repr

/-- The table `value_type_names` of value.c. -/
def value_type_names : ValueType → String
  | .ERROR_TYPE => "Error"
  | .FUNCTION_TYPE => "Function"
  | .NUMBER_TYPE => "Number"
  | .QEXPRESSION_TYPE => "Qexpression"
  | .SEXPRESSION_TYPE => "Sexpression"
  | .STRING_TYPE => "String"
  | .SYMBOL_TYPE => "Symbol"

/-- A `ValueBuiltin` function pointer: one handle per builtin declared in
value.h. Two pointers are equal exactly when they name the same function. -/
inductive ValueBuiltin
  | value_symbol_add_eval
  | value_symbol_and_eval
  | value_symbol_def_eval
  | value_symbol_divide_eval
  | value_symbol_error_eval
  | value_symbol_eval_eval
  | value_symbol_eq_eval
  | value_symbol_ge_eval
  | value_symbol_gt_eval
  | value_symbol_head_eval
  | value_symbol_if_eval
  | value_symbol_input_eval
  | value_symbol_join_eval
  | value_symbol_lambda_eval
  | value_symbol_le_eval
  | value_symbol_list_eval
  | value_symbol_load_eval
  | value_symbol_lt_eval
  | value_symbol_multiply_eval
  | value_symbol_ne_eval
  | value_symbol_not_eval
  | value_symbol_or_eval
  | value_symbol_print_eval
  | value_symbol_set_eval
  | value_symbol_substract_eval
  | value_symbol_tail_eval
  | value_symbol_while_eval
  deriving DecidableEq, Repr

mutual
/-- The record `Value` of value.h. -/
inductive Value (N : Type) : Type
  | error (error : String)
  | builtin (builtin : ValueBuiltin)
  | lambda (env : Env N) (lambda_formals : Value N) (lambda_body : Value N)
  | number (number : N)
  | sexpression (children : List (Value N))
  | qexpression (children : List (Value N))
  | string (string : String)
  | symbol (symbol : String)
/-- The record `Env` of env.h: the parent scope and the hash chains. -/
inductive Env (N : Type) : Type
  | mk (parent : Option (Env N)) (entries : List (List (String × Value N)))
end

/-- The external parts the code is built against. `ERROR_BUFFER_SIZE` and
`ENV_ENTRY_KEY_HASH_MODULO` are the constants of config.h. `fgets n` is what
`fgets(buffer, n, stdin)` leaves in the buffer (`none` when it fails); the
position in standard input is not tracked, so every call reads the same line.
`mpc_parse_contents path` is the outcome of parsing the file and reading the
tree with `value_read`: the top-level expressions, or the parser's
diagnostic. `mpcf_escape` is the function of that name of the `mpc` library,
which `value_string_print` passes a string through. -/
structure Config (N : Type) where
  ERROR_BUFFER_SIZE : Nat
  ENV_ENTRY_KEY_HASH_MODULO : Nat
  fgets : Nat → Option String
  mpc_parse_contents : String → Except String (List (Value N))
  mpcf_escape : String → String

variable {N : Type}

/-- The field `type` of a value. -/
def Value.type : Value N → ValueType
  | .error _ => .ERROR_TYPE
  | .builtin _ => .FUNCTION_TYPE
  | .lambda _ _ _ => .FUNCTION_TYPE
  | .number _ => .NUMBER_TYPE
  | .sexpression _ => .SEXPRESSION_TYPE
  | .qexpression _ => .QEXPRESSION_TYPE
  | .string _ => .STRING_TYPE
  | .symbol _ => .SYMBOL_TYPE

/-- The fields `children`, `children_count` of an expression; no defined
value for the other variants. -/
def Value.children : Value N → Option (List (Value N))
  | .sexpression cs => some cs
  | .qexpression cs => some cs
  | _ => none

/-- The assignment `value->type = SEXPRESSION_TYPE`. Only an expression has
children to keep, so the retagged value is undefined for the other variants. -/
def Value.as_sexpression : Value N → Option (Value N)
  | .sexpression cs => some (.sexpression cs)
  | .qexpression cs => some (.sexpression cs)
  | _ => none

/-- An expression with its children replaced and its tag kept. -/
def Value.set_children : Value N → List (Value N) → Value N
  | .sexpression _, cs => .sexpression cs
  | .qexpression _, cs => .qexpression cs
  | v, _ => v

/-- The field `parent` of a scope. -/
def Env.parent : Env N → Option (Env N)
  | .mk parent _ => parent

/-- The field `entries` of a scope. -/
def Env.entries : Env N → List (List (String × Value N))
  | .mk _ entries => entries

mutual
/-- The function `value_copy`: a deep copy, rebuilt constructor by constructor. -/
def value_copy : Value N → Value N
  | .error e => .error e
  | .builtin b => .builtin b
  | .lambda env formals body =>
    .lambda (env_copy env) (value_copy formals) (value_copy body)
  | .number n => .number n
  | .sexpression cs => .sexpression (value_copy_children cs)
  | .qexpression cs => .qexpression (value_copy_children cs)
  | .string s => .string s
  | .symbol s => .symbol s
/-- The loop of `value_copy` over the children of an expression. -/
def value_copy_children : List (Value N) → List (Value N)
  | [] => []
  | c :: cs => value_copy c :: value_copy_children cs
/-- The function `env_copy`: the parent pointer is kept, every chain is copied. -/
def env_copy : Env N → Env N
  | .mk parent entries => .mk parent (env_copy_entries entries)
/-- The loop of `env_copy` over the hash chains. -/
def env_copy_entries : List (List (String × Value N)) → List (List (String × Value N))
  | [] => []
  | chain :: chains => env_entry_copy chain :: env_copy_entries chains
/-- The function `env_entry_copy`: copies a chain cell by cell. -/
def env_entry_copy : List (String × Value N) → List (String × Value N)
  | [] => []
  | (symbol, value) :: next => (symbol, value_copy value) :: env_entry_copy next
end

mutual
/-- The function `value_eq`: structural equality; the captured environment of
a lambda is not compared. -/
def value_eq [ValueNumber N] : Value N → Value N → Bool
  | .error x, .error y => x == y
  | .builtin x, .builtin y => x == y
  | .lambda _ xf xb, .lambda _ yf yb => value_eq xf yf && value_eq xb yb
  | .number x, .number y => ValueNumber.eq x y
  | .sexpression xs, .sexpression ys => value_eq_children xs ys
  | .qexpression xs, .qexpression ys => value_eq_children xs ys
  | .string x, .string y => x == y
  | .symbol x, .symbol y => x == y
  | _, _ => false
/-- The loop of `value_eq` over two child arrays: the counts agree and the
children are pairwise equal. -/
def value_eq_children [ValueNumber N] : List (Value N) → List (Value N) → Bool
  | [], [] => true
  | x :: xs, y :: ys => value_eq x y && value_eq_children xs ys
  | _, _ => false
end

/-- The function `value_error_alloc`, applied to the message already
formatted: `vsnprintf` is given `ERROR_BUFFER_SIZE - 1` bytes, so it keeps at
most `ERROR_BUFFER_SIZE - 2` characters of the message. -/
def value_error_alloc (cfg : Config N) (message : String) : Value N :=
  .error ⟨message.data.take (cfg.ERROR_BUFFER_SIZE - 2)⟩

/-- The function `value_expression_alloc`: an expression without children. -/
def value_expression_alloc (type : ValueType) : Value N :=
  if type = .SEXPRESSION_TYPE then .sexpression [] else .qexpression []

mutual
/-- The function `value_print`: the characters it writes to standard output.
The cases of `value_function_print` (the two function cases) and of
`value_string_print` are written out in place; the expression cases are
`value_expression_print`, the brackets around its loop. -/
def value_print [ValueNumber N] (cfg : Config N) : Value N → String
  | .error e => "Error: " ++ e
  | .builtin _ => "<builtin>"
  | .lambda _ formals body =>
    "(\\ " ++ value_print cfg formals ++ " " ++ value_print cfg body ++ ")"
  | .number n => ValueNumber.fmt n
  | .sexpression cs => "(" ++ value_expression_print_loop cfg cs ++ ")"
  | .qexpression cs => "\x7b" ++ value_expression_print_loop cfg cs ++ "\x7d"
  | .string s => "\"" ++ cfg.mpcf_escape s ++ "\""
  | .symbol s => s
/-- The loop of `value_expression_print` over the children left: each child is
printed, and a space after it unless it is the last one
(`i != value->children_count - 1`). -/
def value_expression_print_loop [ValueNumber N] (cfg : Config N) : List (Value N) → String
  | [] => ""
  | child :: children =>
    value_print cfg child ++ (if children.length ≠ 0 then " " else "")
      ++ value_expression_print_loop cfg children
end

/-- The function `env_entry_hash_key`: a polynomial hash of the symbol's
bytes in `size_t` arithmetic (64 bits), reduced modulo the table size. -/
def env_entry_hash_key (cfg : Config N) (key : String) : Nat :=
  (key.data.foldl (fun hash c => (c.toNat + 31 * hash) % 2 ^ 64) 0)
    % cfg.ENV_ENTRY_KEY_HASH_MODULO

/-- The walk of `env_lookup` along one chain: the first cell whose symbol is
`key`. -/
def env_entry_find (key : String) : List (String × Value N) → Option (Value N)
  | [] => none
  | (symbol, value) :: next =>
    if symbol = key then some value else env_entry_find key next

/-- The function `env_lookup`: the value of the entry found in the chain the
key hashes to, `none` for the `NULL` entry. -/
def env_lookup (cfg : Config N) (env : Env N) (key : String) : Option (Value N) :=
  env_entry_find key (env.entries.getD (env_entry_hash_key cfg key) [])

/-- The function `env_get`: a copy of the value found in this scope, else the
parent's answer, else an error. -/
def env_get (cfg : Config N) : Env N → String → Value N
  | .mk none entries, key =>
    match env_lookup cfg (.mk none entries) key with
    | some value => value_copy value
    | none => value_error_alloc cfg ("Invalid symbol: " ++ key ++ ".")
  | .mk (some parent) entries, key =>
    match env_lookup cfg (.mk (some parent) entries) key with
    | some value => value_copy value
    | none => env_get cfg parent key

/-- The assignment `entry->value = value_copy(value)` on the cell `env_lookup`
found: the first cell of the chain whose symbol is `key`. -/
def env_entry_assign (key : String) (value : Value N) :
    List (String × Value N) → List (String × Value N)
  | [] => []
  | (symbol, old) :: next =>
    if symbol = key then (symbol, value_copy value) :: next
    else (symbol, old) :: env_entry_assign key value next

/-- The function `env_set`: overwrite the entry of `key` in this scope, or put
a new entry at the head of its chain. -/
def env_set (cfg : Config N) (env : Env N) (key : String) (value : Value N) : Env N :=
  let hash := env_entry_hash_key cfg key
  let chain := env.entries.getD hash []
  match env_lookup cfg env key with
  | some _ => .mk env.parent (env.entries.set hash (env_entry_assign key value chain))
  | none => .mk env.parent (env.entries.set hash ((key, value_copy value) :: chain))

/-- The function `env_set_for_ancestor`: `env_set` on the root of the chain. -/
def env_set_for_ancestor (cfg : Config N) : Env N → String → Value N → Env N
  | .mk none entries, key, value => env_set cfg (.mk none entries) key value
  | .mk (some parent) entries, key, value =>
    .mk (some (env_set_for_ancestor cfg parent key value)) entries

/-- The function `env_alloc`: no parent, every chain empty. -/
def env_alloc (cfg : Config N) : Env N :=
  .mk none (List.replicate cfg.ENV_ENTRY_KEY_HASH_MODULO [])

/-- The function `env_set_builtin`. -/
def env_set_builtin (cfg : Config N) (env : Env N) (symbol : String)
    (builtin : ValueBuiltin) : Env N :=
  env_set cfg env symbol (.builtin builtin)

/-- The function `env_set_builtins`. -/
def env_set_builtins (cfg : Config N) (env : Env N) : Env N :=
  [ ("=", ValueBuiltin.value_symbol_set_eval),
    ("+", .value_symbol_add_eval),
    ("-", .value_symbol_substract_eval),
    ("*", .value_symbol_multiply_eval),
    ("/", .value_symbol_divide_eval),
    ("==", .value_symbol_eq_eval),
    ("!=", .value_symbol_ne_eval),
    (">", .value_symbol_gt_eval),
    (">=", .value_symbol_ge_eval),
    ("<", .value_symbol_lt_eval),
    ("<=", .value_symbol_le_eval),
    ("!", .value_symbol_not_eval),
    ("||", .value_symbol_or_eval),
    ("&&", .value_symbol_and_eval),
    ("\\", .value_symbol_lambda_eval),
    ("def", .value_symbol_def_eval),
    ("error", .value_symbol_error_eval),
    ("eval", .value_symbol_eval_eval),
    ("head", .value_symbol_head_eval),
    ("if", .value_symbol_if_eval),
    ("while", .value_symbol_while_eval),
    ("input", .value_symbol_input_eval),
    ("join", .value_symbol_join_eval),
    ("list", .value_symbol_list_eval),
    ("load", .value_symbol_load_eval),
    ("print", .value_symbol_print_eval),
    ("tail", .value_symbol_tail_eval) ].foldl
    (fun env entry => env_set_builtin cfg env entry.1 entry.2) env

/-- A C condition on a double, `if (x)`: `x != 0`. -/
def number_true [ValueNumber N] (x : N) : Bool :=
  !ValueNumber.eq x ValueNumber.zero

/-- The conversion of a C truth value (the `int` 0 or 1) to `ValueNumber`. -/
def number_of_bool [ValueNumber N] (b : Bool) : N :=
  if b then ValueNumber.one else ValueNumber.zero

/-- The macro `VALIDATE_SYMBOL_ARGS_COUNT`, its failing branch: the error
returned when the argument count is not `expected`. -/
def args_count_error (cfg : Config N) (symbol : String) (expected count : Nat) : Value N :=
  value_error_alloc cfg
    (symbol ++ ": Too many arguments. Expected " ++ toString expected
      ++ ". Got " ++ toString count ++ ".")

/-- The macro `VALIDATE_SYMBOL_ARG_TYPE`, its failing branch: the error
returned when argument `index` has type `got` and not `expected`. -/
def arg_type_error (cfg : Config N) (symbol : String) (index : Nat)
    (expected got : ValueType) : Value N :=
  value_error_alloc cfg
    (symbol ++ ": Invalid " ++ toString index ++ " argument type. Expected "
      ++ value_type_names expected ++ ". Got " ++ value_type_names got ++ ".")

/-- The loop `for (i = ...) VALIDATE_SYMBOL_ARG_TYPE(symbol, value, i, expected)`
from index `i` on: the error for the first argument of another type, if any. -/
def validate_arg_types (cfg : Config N) (symbol : String) (expected : ValueType) :
    Nat → List (Value N) → Option (Value N)
  | _, [] => none
  | i, c :: cs =>
    if c.type = expected then validate_arg_types cfg symbol expected (i + 1) cs
    else some (arg_type_error cfg symbol i expected c.type)

/-- The loop of `value_symbol_arithmetic_eval`: pops the operands one by one
and folds them into `left`. -/
def value_symbol_arithmetic_loop [ValueNumber N] (cfg : Config N) (symbol : String) :
    N → List (Value N) → Option (Value N)
  | left, [] => some (.number left)
  | left, .number right :: rest =>
    if symbol = "+" then
      value_symbol_arithmetic_loop cfg symbol (ValueNumber.add left right) rest
    else if symbol = "-" then
      value_symbol_arithmetic_loop cfg symbol (ValueNumber.sub left right) rest
    else if symbol = "*" then
      value_symbol_arithmetic_loop cfg symbol (ValueNumber.mul left right) rest
    else if symbol = "/" then
      if ValueNumber.eq right ValueNumber.zero then
        some (value_error_alloc cfg "Division by zero.")
      else value_symbol_arithmetic_loop cfg symbol (ValueNumber.div left right) rest
    else value_symbol_arithmetic_loop cfg symbol left rest
  | _, _ :: _ => none

/-- The function `value_symbol_arithmetic_eval`. With no argument at all the
first `value_pop_child` reads past the array: no defined result. -/
def value_symbol_arithmetic_eval [ValueNumber N] (cfg : Config N) (symbol : String)
    (args : List (Value N)) : Option (Value N) :=
  match validate_arg_types cfg symbol .NUMBER_TYPE 0 args with
  | some error => some error
  | none =>
    match args with
    | .number left :: rest =>
      if symbol = "-" ∧ rest.length = 0 then
        value_symbol_arithmetic_loop cfg symbol (ValueNumber.neg left) rest
      else value_symbol_arithmetic_loop cfg symbol left rest
    | _ => none

/-- The function `value_symbol_cmp_eval`. -/
def value_symbol_cmp_eval [ValueNumber N] (cfg : Config N) (symbol : String)
    (args : List (Value N)) : Value N :=
  match args with
  | [x, y] =>
    .number (number_of_bool (if symbol = "==" then value_eq x y else !value_eq x y))
  | _ => args_count_error cfg symbol 2 args.length

/-- The loop of `value_symbol_condition_chain_eval` from index `i` on, with
the accumulator `result` (not yet assigned when `i = 0`). -/
def value_symbol_condition_chain_loop [ValueNumber N] (cfg : Config N) (symbol : String)
    (or and : Bool) : Nat → N → List (Value N) → Value N
  | _, result, [] => .number result
  | i, result, .number n :: cs =>
    let result :=
      if i = 0 then n
      else if or then number_of_bool (number_true result || number_true n)
      else if and then number_of_bool (number_true result && number_true n)
      else result
    if (!number_true result && and) || (number_true result && or) then .number result
    else value_symbol_condition_chain_loop cfg symbol or and (i + 1) result cs
  | i, _, c :: _ => arg_type_error cfg symbol i .NUMBER_TYPE c.type

/-- The function `value_symbol_condition_chain_eval`. -/
def value_symbol_condition_chain_eval [ValueNumber N] (cfg : Config N) (symbol : String)
    (args : List (Value N)) : Value N :=
  if args.length < 2 then
    value_error_alloc cfg
      (symbol ++ ": Too few arguments. Expected greater or equal to 2. Got "
        ++ toString args.length ++ ".")
  else
    let or : Bool := symbol = "||"
    let and : Bool := !or && symbol = "&&"
    value_symbol_condition_chain_loop cfg symbol or and 0 ValueNumber.zero args

/-- The function `value_symbol_ordering_eval`. -/
def value_symbol_ordering_eval [ValueNumber N] (cfg : Config N) (symbol : String)
    (args : List (Value N)) : Value N :=
  match args with
  | [.number x, .number y] =>
    if symbol = ">" then .number (number_of_bool (ValueNumber.lt y x))
    else if symbol = "<" then .number (number_of_bool (ValueNumber.lt x y))
    else if symbol = ">=" then .number (number_of_bool (ValueNumber.le y x))
    else if symbol = "<=" then .number (number_of_bool (ValueNumber.le x y))
    else .number ValueNumber.zero
  | [.number _, y] => arg_type_error cfg symbol 1 .NUMBER_TYPE y.type
  | [x, _] => arg_type_error cfg symbol 0 .NUMBER_TYPE x.type
  | _ => args_count_error cfg symbol 2 args.length

/-- The binding loop of `value_symbol_variable_eval`: symbol `i` is set to
value `i`, in this scope for `=` and in the root scope for `def`. -/
def value_symbol_variable_loop (cfg : Config N) (symbol : String) :
    List (Value N) → List (Value N) → Env N → Env N
  | .symbol key :: keys, value :: values, env =>
    value_symbol_variable_loop cfg symbol keys values
      (if symbol = "=" then env_set cfg env key value
       else if symbol = "def" then env_set_for_ancestor cfg env key value
       else env)
  | _, _, env => env

/-- The function `value_symbol_variable_eval`. -/
def value_symbol_variable_eval (cfg : Config N) (symbol : String)
    (args : List (Value N)) (env : Env N) : Value N × Env N :=
  match args with
  | .qexpression symbols :: value :: values =>
    if symbols.all (fun s => s.type = .SYMBOL_TYPE) then
      if symbols.length = (value :: values).length then
        (.sexpression [], value_symbol_variable_loop cfg symbol symbols (value :: values) env)
      else
        (value_error_alloc cfg (symbol ++ ": Arguments count not equals to values count."), env)
    else (value_error_alloc cfg (symbol ++ ": Argument not a symbol."), env)
  | _ :: _ :: _ => (value_error_alloc cfg (symbol ++ ": Arguments not in \x7b\x7d."), env)
  | _ => (value_error_alloc cfg (symbol ++ ": Required at least one value."), env)

/-- The function `value_symbol_error_eval`. The argument string is handed to
`value_error_alloc` as the format itself, so a string with a conversion
(`%`) makes `vsnprintf` read arguments that were not passed: no defined
result. -/
def value_symbol_error_eval (cfg : Config N) (args : List (Value N)) : Option (Value N) :=
  match args with
  | [.string s] => if '%' ∈ s.data then none else some (value_error_alloc cfg s)
  | [v] => some (arg_type_error cfg "error" 0 .STRING_TYPE v.type)
  | _ => some (args_count_error cfg "error" 1 args.length)

/-- The function `value_symbol_head_eval`. `value_free_without_child` frees
`value` and hands over its only child `arg`. For an empty argument the macro
`VALIDATE_SYMBOL_ARGS` is then given `value`, not `arg` (as the last branch
does): it frees `value` a second time, so there is no defined result. -/
def value_symbol_head_eval (cfg : Config N) (args : List (Value N)) : Option (Value N) :=
  match args with
  | [.qexpression []] => none
  | [.qexpression (child :: _)] => some (.qexpression [child])
  | [.string s] =>
    if s.length = 0 then none
    else some (.string ⟨s.data.take 1⟩)
  | [arg] =>
    some (value_error_alloc cfg
      ("head: Invalid arg type. Expected " ++ value_type_names .QEXPRESSION_TYPE
        ++ " or " ++ value_type_names .STRING_TYPE ++ ". Got "
        ++ value_type_names arg.type ++ "."))
  | _ => some (args_count_error cfg "head" 1 args.length)

/-- The function `value_symbol_tail_eval`. As in `value_symbol_head_eval`, an
empty argument makes the macro free `value` a second time. For a String that
is not empty, `++arg->string` moves the pointer off the start of its
allocation and the value is returned with it: it can be read, but
`value_free`, which every consumer of the value ends with, hands that pointer
to `free`. Neither path has a defined result. -/
def value_symbol_tail_eval (cfg : Config N) (args : List (Value N)) : Option (Value N) :=
  match args with
  | [.qexpression []] => none
  | [.qexpression (_ :: children)] => some (.qexpression children)
  | [.string _] => none
  | [arg] =>
    some (value_error_alloc cfg
      ("tail: Invalid arg type. Expected: " ++ value_type_names .QEXPRESSION_TYPE
        ++ " or " ++ value_type_names .STRING_TYPE ++ ". Got: "
        ++ value_type_names arg.type ++ "."))
  | _ => some (args_count_error cfg "tail" 1 args.length)

/-- The function `value_extend_children`: the children of `src` are moved to
the end of `dst`. -/
def value_extend_children (dst src : Value N) : Option (Value N) :=
  match dst.children, src.children with
  | some xs, some ys => some (dst.set_children (xs ++ ys))
  | _, _ => none

/-- The function `value_extend_string`: the string of `src` is appended to
that of `dst`. -/
def value_extend_string (dst src : Value N) : Option (Value N) :=
  match dst, src with
  | .string x, .string y => some (.string (x ++ y))
  | _, _ => none

/-- The loop `while (value->children_count > 0) extend(left, value_pop_child(value, 0))`
of `value_symbol_join_eval`. -/
def value_symbol_join_loop (extend : Value N → Value N → Option (Value N)) :
    Value N → List (Value N) → Option (Value N)
  | left, [] => some left
  | left, child :: children =>
    match extend left child with
    | some left => value_symbol_join_loop extend left children
    | none => none

/-- The function `value_symbol_join_eval`. -/
def value_symbol_join_eval (cfg : Config N) (args : List (Value N)) : Option (Value N) :=
  match args with
  | first :: second :: others =>
    if first.type = .QEXPRESSION_TYPE then
      match validate_arg_types cfg "join" .QEXPRESSION_TYPE 0 args with
      | some error => some error
      | none => value_symbol_join_loop value_extend_children first (second :: others)
    else
      match validate_arg_types cfg "join" .STRING_TYPE 0 args with
      | some error => some error
      | none => value_symbol_join_loop value_extend_string first (second :: others)
  | _ =>
    some (value_error_alloc cfg
      ("join: Invalid args count. Expected at least 2. Got " ++ toString args.length ++ "."))

/-- The function `value_lambda_alloc`: a lambda with a fresh, empty scope. -/
def value_lambda_alloc (cfg : Config N) (args body : Value N) : Value N :=
  .lambda (env_alloc cfg) args body

/-- The function `value_symbol_lambda_eval`. When a formal is not a symbol the
error message is formatted with one argument fewer than its conversions ask
for: no defined result. -/
def value_symbol_lambda_eval (cfg : Config N) (args : List (Value N)) : Option (Value N) :=
  match args with
  | [.qexpression formals, .qexpression body] =>
    if formals.all (fun s => s.type = .SYMBOL_TYPE) then
      some (value_lambda_alloc cfg (.qexpression formals) (.qexpression body))
    else none
  | [.qexpression _, body] => some (arg_type_error cfg "\\" 1 .QEXPRESSION_TYPE body.type)
  | [formals, _] => some (arg_type_error cfg "\\" 0 .QEXPRESSION_TYPE formals.type)
  | _ => some (args_count_error cfg "\\" 2 args.length)

/-- The function `value_symbol_list_eval`: the argument list retagged. -/
def value_symbol_list_eval (args : List (Value N)) : Value N :=
  .qexpression args

/-- The function `value_symbol_not_eval`. -/
def value_symbol_not_eval [ValueNumber N] (cfg : Config N) (args : List (Value N)) : Value N :=
  match args with
  | [.number n] => .number (number_of_bool (!number_true n))
  | [v] => arg_type_error cfg "!" 0 .NUMBER_TYPE v.type
  | _ => args_count_error cfg "!" 1 args.length

/-- The function `value_symbol_print_eval`: the arguments go to standard
output, the result is the empty S-expression. -/
def value_symbol_print_eval (_args : List (Value N)) : Value N :=
  value_expression_alloc .SEXPRESSION_TYPE

/-- The function `value_symbol_input_eval`. -/
def value_symbol_input_eval [ValueNumber N] (cfg : Config N) (args : List (Value N)) : Value N :=
  match args with
  | [.string _, .number length] =>
    if ValueNumber.le ValueNumber.one length then
      match cfg.fgets (ValueNumber.toSize length + 1) with
      | some buffer => .string ⟨buffer.data.takeWhile (fun c => c ≠ '\n')⟩
      | none => value_error_alloc cfg "Failed to input."
    else
      value_error_alloc cfg
        ("input: Length must be >= 1. Got " ++ ValueNumber.fmt length ++ ".")
  | [.string _, length] => arg_type_error cfg "input" 1 .NUMBER_TYPE length.type
  | [prompt, _] => arg_type_error cfg "input" 0 .STRING_TYPE prompt.type
  | _ => args_count_error cfg "input" 2 args.length

/-- The type of `value_eval` once its fuel is fixed: the evaluator the
functions below call back into. -/
abbrev Eval (N : Type) := Value N → Env N → Option (Value N × Env N)

/-- The function `value_symbol_eval_eval`. -/
def value_symbol_eval_eval (cfg : Config N) (ev : Eval N) (args : List (Value N))
    (env : Env N) : Option (Value N × Env N) :=
  match args with
  | [.qexpression children] => ev (.sexpression children) env
  | [arg] => some (arg_type_error cfg "eval" 0 .QEXPRESSION_TYPE arg.type, env)
  | _ => some (args_count_error cfg "eval" 1 args.length, env)

/-- The function `value_symbol_if_eval`. The second argument is validated
twice and the third not at all; both are then retagged, which is undefined
for a third argument that is not an expression. -/
def value_symbol_if_eval [ValueNumber N] (cfg : Config N) (ev : Eval N)
    (args : List (Value N)) (env : Env N) : Option (Value N × Env N) :=
  match args with
  | [.number condition, .qexpression first, other] =>
    match other.as_sexpression with
    | some second =>
      if number_true condition then ev (.sexpression first) env else ev second env
    | none => none
  | [.number _, first, _] => some (arg_type_error cfg "if" 1 .QEXPRESSION_TYPE first.type, env)
  | [condition, _, _] => some (arg_type_error cfg "if" 0 .NUMBER_TYPE condition.type, env)
  | _ => some (args_count_error cfg "if" 3 args.length, env)

/-- The loop of `value_symbol_while_eval`, run for at most `fuel` rounds:
`condition` and `body` are the two arguments retagged as S-expressions,
`result` is the value of the last round of the body. -/
def value_symbol_while_loop [ValueNumber N] (cfg : Config N) (ev : Eval N)
    (condition body : Value N) : Nat → Value N → Env N → Option (Value N × Env N)
  | 0, _, _ => none
  | fuel + 1, result, env =>
    match ev (value_copy condition) env with
    | none => none
    | some (.number n, env) =>
      if number_true n then
        match ev (value_copy body) env with
        | none => none
        | some (result, env) => value_symbol_while_loop cfg ev condition body fuel result env
      else some (result, env)
    | some (condition_result, env) =>
      some (value_error_alloc cfg
        ("while: Condition isn't a number, but "
          ++ value_type_names condition_result.type ++ "."), env)

/-- The function `value_symbol_while_eval`. The type errors carry the name
`tail`, as in the source. -/
def value_symbol_while_eval [ValueNumber N] (cfg : Config N) (fuel : Nat) (ev : Eval N)
    (args : List (Value N)) (env : Env N) : Option (Value N × Env N) :=
  match args with
  | [.qexpression condition, .qexpression body] =>
    value_symbol_while_loop cfg ev (.sexpression condition) (.sexpression body) fuel
      (value_expression_alloc .SEXPRESSION_TYPE) env
  | [.qexpression _, body] =>
    some (arg_type_error cfg "tail" 1 .QEXPRESSION_TYPE body.type, env)
  | [condition, _] =>
    some (arg_type_error cfg "tail" 0 .QEXPRESSION_TYPE condition.type, env)
  | _ => some (args_count_error cfg "while" 2 args.length, env)

/-- The loop of `value_symbol_load_eval`: the expressions of the file are
evaluated in order; their results are dropped (an error is printed first). -/
def value_symbol_load_loop (ev : Eval N) : List (Value N) → Env N → Option (Env N)
  | [], env => some env
  | expression :: expressions, env =>
    match ev expression env with
    | none => none
    | some (_, env) => value_symbol_load_loop ev expressions env

/-- The function `value_symbol_load_eval`. -/
def value_symbol_load_eval (cfg : Config N) (ev : Eval N) (args : List (Value N))
    (env : Env N) : Option (Value N × Env N) :=
  match args with
  | [.string path] =>
    match cfg.mpc_parse_contents path with
    | .ok expressions =>
      match value_symbol_load_loop ev expressions env with
      | some env => some (value_expression_alloc .SEXPRESSION_TYPE, env)
      | none => none
    | .error mpc_error =>
      some (value_error_alloc cfg ("Error loading " ++ path ++ ": " ++ mpc_error), env)
  | [arg] => some (arg_type_error cfg "load" 0 .STRING_TYPE arg.type, env)
  | _ => some (args_count_error cfg "load" 1 args.length, env)

/-- The call `f->builtin(args, env)` through a builtin's function pointer:
each handle runs the function of value.c it names. A builtin that only reads
its arguments leaves the environment as it is. -/
def value_builtin_call [ValueNumber N] (cfg : Config N) (fuel : Nat) (ev : Eval N)
    (builtin : ValueBuiltin) (args : List (Value N)) (env : Env N) :
    Option (Value N × Env N) :=
  match builtin with
  | .value_symbol_add_eval => (value_symbol_arithmetic_eval cfg "+" args).map (·, env)
  | .value_symbol_and_eval => some (value_symbol_condition_chain_eval cfg "&&" args, env)
  | .value_symbol_def_eval => some (value_symbol_variable_eval cfg "def" args env)
  | .value_symbol_divide_eval => (value_symbol_arithmetic_eval cfg "/" args).map (·, env)
  | .value_symbol_error_eval => (value_symbol_error_eval cfg args).map (·, env)
  | .value_symbol_eval_eval => value_symbol_eval_eval cfg ev args env
  | .value_symbol_eq_eval => some (value_symbol_cmp_eval cfg "==" args, env)
  | .value_symbol_ge_eval => some (value_symbol_ordering_eval cfg ">=" args, env)
  | .value_symbol_gt_eval => some (value_symbol_ordering_eval cfg ">" args, env)
  | .value_symbol_head_eval => (value_symbol_head_eval cfg args).map (·, env)
  | .value_symbol_if_eval => value_symbol_if_eval cfg ev args env
  | .value_symbol_input_eval => some (value_symbol_input_eval cfg args, env)
  | .value_symbol_join_eval => (value_symbol_join_eval cfg args).map (·, env)
  | .value_symbol_lambda_eval => (value_symbol_lambda_eval cfg args).map (·, env)
  | .value_symbol_le_eval => some (value_symbol_ordering_eval cfg "<=" args, env)
  | .value_symbol_list_eval => some (value_symbol_list_eval args, env)
  | .value_symbol_load_eval => value_symbol_load_eval cfg ev args env
  | .value_symbol_lt_eval => some (value_symbol_ordering_eval cfg "<" args, env)
  | .value_symbol_multiply_eval => (value_symbol_arithmetic_eval cfg "*" args).map (·, env)
  | .value_symbol_ne_eval => some (value_symbol_cmp_eval cfg "!=" args, env)
  | .value_symbol_not_eval => some (value_symbol_not_eval cfg args, env)
  | .value_symbol_or_eval => some (value_symbol_condition_chain_eval cfg "||" args, env)
  | .value_symbol_print_eval => some (value_symbol_print_eval args, env)
  | .value_symbol_set_eval => some (value_symbol_variable_eval cfg "=" args env)
  | .value_symbol_substract_eval => (value_symbol_arithmetic_eval cfg "-" args).map (·, env)
  | .value_symbol_tail_eval => (value_symbol_tail_eval cfg args).map (·, env)
  | .value_symbol_while_eval => value_symbol_while_eval cfg fuel ev args env

/-- How the argument-binding part of `value_function_call` ends: with a
`return` of an error, or with the lambda's scope and the formals left. -/
inductive Binding (N : Type) : Type
  | returned (error : Value N)
  | bound (env : Env N) (formals : List (Value N))

/-- The loop `while (args->children_count > 0)` of `value_function_call`, on
the lambda's scope, the formals left and the arguments left. Reading the
symbol of a formal that is not a symbol is undefined. -/
def value_function_call_loop (cfg : Config N) (formals_expected args_given : Nat) :
    Env N → List (Value N) → List (Value N) → Option (Binding N)
  | env, formals, [] => some (.bound env formals)
  | _, [], _ :: _ =>
    some (.returned (value_error_alloc cfg
      ("Too many args. Expected " ++ toString formals_expected
        ++ ". Got " ++ toString args_given ++ ".")))
  | env, .symbol key :: formals, value :: args =>
    if key = "&" then
      match formals with
      | [.symbol key] => some (.bound (env_set cfg env key (.qexpression (value :: args))) [])
      | [_] => none
      | _ => some (.returned (value_error_alloc cfg "`&` not followed by single formal"))
    else
      value_function_call_loop cfg formals_expected args_given
        (env_set cfg env key value) formals args
  | _, _ :: _, _ :: _ => none

/-- The step of `value_function_call` after the loop: when `&` is the next
formal, the formal behind it is bound to the empty Q-expression. -/
def value_function_call_rest (cfg : Config N) :
    Env N → List (Value N) → Option (Binding N)
  | env, [] => some (.bound env [])
  | env, .symbol key :: formals =>
    if key = "&" then
      match formals with
      | [.symbol key] =>
        some (.bound (env_set cfg env key (value_expression_alloc .QEXPRESSION_TYPE)) [])
      | [_] => none
      | _ => some (.returned (value_error_alloc cfg "`&` not followed by single formal"))
    else some (.bound env (.symbol key :: formals))
  | _, _ :: _ => none

/-- The assignment `f->env->parent = env`. -/
def Env.set_parent : Env N → Env N → Env N
  | .mk _ entries, parent => .mk (some parent) entries

/-- The return from a body evaluated in the lambda's scope: the lambda and
its scope are freed, the caller has the value, and its own environment is the
scope's parent as the evaluation left it. -/
def leave_scope : Option (Value N × Env N) → Option (Value N × Env N)
  | some (value, .mk (some env) _) => some (value, env)
  | _ => none

/-- The function `value_function_call`. For a lambda with no formal left the
body is evaluated in the lambda's scope with `env` as its parent; the caller's
environment afterwards is that parent, as the evaluation left it. -/
def value_function_call [ValueNumber N] (cfg : Config N) (fuel : Nat) (ev : Eval N)
    (f : Value N) (env : Env N) (args : List (Value N)) : Option (Value N × Env N) :=
  match f with
  | .builtin builtin => value_builtin_call cfg fuel ev builtin args env
  | .lambda f_env lambda_formals lambda_body =>
    match lambda_formals.children with
    | none => none
    | some formals =>
      match value_function_call_loop cfg formals.length args.length f_env formals args with
      | none => none
      | some (.returned error) => some (error, env)
      | some (.bound f_env formals) =>
        match value_function_call_rest cfg f_env formals with
        | none => none
        | some (.returned error) => some (error, env)
        | some (.bound f_env []) =>
          match lambda_body.as_sexpression with
          | none => none
          | some body =>
            leave_scope (ev (value_copy body) (f_env.set_parent env))
        | some (.bound f_env formals) =>
          some (.lambda f_env (lambda_formals.set_children formals) lambda_body, env)
  | _ => none

/-- How the loop over the children of an S-expression ends: with the first
error among the evaluated children, or with all of them evaluated. -/
inductive Children (N : Type) : Type
  | failed (error : Value N)
  | evaluated (children : List (Value N))

/-- The loop of `value_sexpression_eval`: the children are evaluated in
order, each in the environment the one before left, up to the first error. -/
def value_sexpression_eval_children (ev : Eval N) :
    List (Value N) → Env N → Option (Children N × Env N)
  | [], env => some (.evaluated [], env)
  | child :: children, env =>
    match ev child env with
    | none => none
    | some (.error e, env) => some (.failed (.error e), env)
    | some (value, env) =>
      match value_sexpression_eval_children ev children env with
      | none => none
      | some (.failed error, env) => some (.failed error, env)
      | some (.evaluated values, env) => some (.evaluated (value :: values), env)

/-- The function `value_sexpression_eval`, on the children of the
S-expression. -/
def value_sexpression_eval [ValueNumber N] (cfg : Config N) (fuel : Nat) (ev : Eval N)
    (children : List (Value N)) (env : Env N) : Option (Value N × Env N) :=
  match value_sexpression_eval_children ev children env with
  | none => none
  | some (.failed error, env) => some (error, env)
  | some (.evaluated [], env) => some (.sexpression [], env)
  | some (.evaluated [child], env) => some (child, env)
  | some (.evaluated (first_child :: args), env) =>
    if first_child.type = .FUNCTION_TYPE then
      value_function_call cfg fuel ev first_child env args
    else
      some (value_error_alloc cfg
        ("()'s first child is not a function, but "
          ++ value_type_names first_child.type ++ "."), env)

/-- The function `value_eval`, with `fuel` bounding the depth of the calls
and the rounds of every `while`. -/
def value_eval [ValueNumber N] (cfg : Config N) : Nat → Value N → Env N →
    Option (Value N × Env N)
  | 0, _, _ => none
  | _ + 1, .symbol symbol, env => some (env_get cfg env symbol, env)
  | fuel + 1, .sexpression children, env =>
    value_sexpression_eval cfg fuel (value_eval cfg fuel) children env
  | _ + 1, value, env => some (value, env)

/-- The digits `printf` writes for `%f`, for an exact rational: the sign, the
integer part, a point and six decimals, rounded half away from zero. -/
def rat_fmt (x : ℚ) : String :=
  let scaled : Int := Int.floor (|x| * 1000000 + 1 / 2)
  let whole := scaled.toNat / 1000000
  let decimals := toString (scaled.toNat % 1000000)
  (if x < 0 then "-" else "") ++ toString whole ++ "."
    ++ String.mk (List.replicate (6 - decimals.length) '0') ++ decimals

/-- Exact rational arithmetic as an instance of the number interface: the
numbers the examples are evaluated with. -/
instance : ValueNumber ℚ where
  zero := 0
  one := 1
  add x y := x + y
  sub x y := x - y
  mul x y := x * y
  div x y := x / y
  neg x := -x
  eq x y := decide (x = y)
  lt x y := decide (x < y)
  le x y := decide (x ≤ y)
  toSize x := (Int.floor x).toNat
  fmt := rat_fmt

/-- The escape sequence `mpcf_escape` writes for a character, for the
examples: a backslash before a quote or a backslash, the letter form of a
line feed or a tab, any other character as it is. -/
def example_escape (c : Char) : List Char :=
  if c = '"' then ['\\', '"']
  else if c = '\\' then ['\\', '\\']
  else if c = '\n' then ['\\', 'n']
  else if c = '\t' then ['\\', 't']
  else [c]

/-- A configuration for the examples: a 512-byte error buffer, 16 hash
chains, an exhausted standard input and no readable file. -/
def example_config : Config ℚ where
  ERROR_BUFFER_SIZE := 512
  ENV_ENTRY_KEY_HASH_MODULO := 16
  fgets := fun _ => none
  mpc_parse_contents := fun _ => .error "file not found"
  mpcf_escape := fun s => ⟨s.data.flatMap example_escape⟩

/-- The top-level environment of `main`: `env_alloc` then `env_set_builtins`. -/
def example_env : Env ℚ :=
  env_set_builtins example_config (env_alloc example_config)

/-! ## Notions the statements are written with -/

/-- The error buffer holds `message` whole: `vsnprintf` does not cut it. -/
def Config.holds (cfg : Config N) (message : String) : Prop :=
  message.length + 2 ≤ cfg.ERROR_BUFFER_SIZE

/-- The scope is a table as `env_alloc` lays it out: it has
`ENV_ENTRY_KEY_HASH_MODULO` hash chains, and that constant is positive. -/
def Env.is_table (cfg : Config N) (env : Env N) : Prop :=
  0 < cfg.ENV_ENTRY_KEY_HASH_MODULO ∧ env.entries.length = cfg.ENV_ENTRY_KEY_HASH_MODULO

/-- The scope `env` after `env_set` has bound the formals, in order, to the
arguments at the same positions. -/
def bind_formals (cfg : Config N) (env : Env N) (formals : List String)
    (args : List (Value N)) : Env N :=
  (formals.zip args).foldl (fun env pair => env_set cfg env pair.1 pair.2) env

/-- The children `children` are evaluated from left to right starting in
`env`: each is evaluated in the environment its left neighbour left and gives
a value that is not an error; `values` are these values in order and the last
environment is the one after the last child. -/
inductive EvaluatesTo (ev : Eval N) :
    List (Value N) → Env N → List (Value N) → Env N → Prop
  | nil (env : Env N) : EvaluatesTo ev [] env [] env
  | cons {child : Value N} {children : List (Value N)} {env env1 env2 : Env N}
      {value : Value N} {values : List (Value N)} :
      ev child env = some (value, env1) → value.type ≠ .ERROR_TYPE →
      EvaluatesTo ev children env1 values env2 →
      EvaluatesTo ev (child :: children) env (value :: values) env2

/-- The scopes of an environment chain, from `env` to the root. -/
def Env.chain : Env N → List (Env N)
  | .mk none entries => [.mk none entries]
  | .mk (some parent) entries => .mk (some parent) entries :: Env.chain parent

/-- The lambda `(\ {a & rest} {rest})` as the builtin `\` builds it. -/
def example_variadic : Value ℚ :=
  .lambda (env_alloc example_config)
    (.qexpression [.symbol "a", .symbol "&", .symbol "rest"]) (.qexpression [.symbol "rest"])

/-- The number of cells of a scope, over all its hash chains. -/
def Env.size (env : Env N) : Nat :=
  (env.entries.map List.length).sum

/-- The root of an environment chain: the scope without a parent. -/
def Env.root : Env N → Env N
  | .mk none entries => .mk none entries
  | .mk (some parent) _ => Env.root parent

/-- The tables of the scopes of a chain, from `env` to the root. -/
def Env.tables (env : Env N) : List (List (List (String × Value N))) :=
  env.chain.map Env.entries

/-- An environment for the examples: the top-level one with `x` set to 1. -/
def example_while_env : Env ℚ :=
  env_set example_config example_env "x" (.number 1)

mutual
/-- No number inside the value is a NaN: every number of the value, of its
children, and of the formals and the body of a lambda is equal to itself under
the C operator `==` (a NaN is the one `double` that is not). -/
def Value.nan_free [ValueNumber N] : Value N → Bool
  | .number x => ValueNumber.eq x x
  | .lambda _ formals body => formals.nan_free && body.nan_free
  | .sexpression cs => nan_free_children cs
  | .qexpression cs => nan_free_children cs
  | _ => true
/-- No number inside the values of the list is a NaN. -/
def nan_free_children [ValueNumber N] : List (Value N) → Bool
  | [] => true
  | c :: cs => c.nan_free && nan_free_children cs
end

/-- The scope in which the builtin named `symbol` binds when it is called in
`env`: the root of the chain for `def`, `env` itself for `=`. -/
def binding_scope (symbol : String) (env : Env N) : Env N :=
  if symbol = "def" then env.root else env

/-! ## Lemmas -/

mutual
theorem value_copy_eq : ∀ value : Value N, value_copy value = value
  | .error _ => rfl
  | .builtin _ => rfl
  | .lambda env formals body => by
    rw [value_copy, env_copy_eq env, value_copy_eq formals, value_copy_eq body]
  | .number _ => rfl
  | .sexpression cs => by rw [value_copy, value_copy_children_eq cs]
  | .qexpression cs => by rw [value_copy, value_copy_children_eq cs]
  | .string _ => rfl
  | .symbol _ => rfl
theorem value_copy_children_eq : ∀ cs : List (Value N), value_copy_children cs = cs
  | [] => rfl
  | c :: cs => by rw [value_copy_children, value_copy_eq c, value_copy_children_eq cs]
theorem env_copy_eq : ∀ env : Env N, env_copy env = env
  | .mk parent entries => by rw [env_copy, env_copy_entries_eq entries]
theorem env_copy_entries_eq :
    ∀ entries : List (List (String × Value N)), env_copy_entries entries = entries
  | [] => rfl
  | chain :: chains => by
    rw [env_copy_entries, env_entry_copy_eq chain, env_copy_entries_eq chains]
theorem env_entry_copy_eq :
    ∀ chain : List (String × Value N), env_entry_copy chain = chain
  | [] => rfl
  | (symbol, value) :: next => by
    rw [env_entry_copy, value_copy_eq value, env_entry_copy_eq next]
end

theorem value_error_alloc_holds (cfg : Config N) (message : String)
    (h : cfg.holds message) : value_error_alloc cfg message = .error message := by
  unfold value_error_alloc
  have hlen : message.data.length ≤ cfg.ERROR_BUFFER_SIZE - 2 := by
    have : message.length + 2 ≤ cfg.ERROR_BUFFER_SIZE := h
    have h2 : message.data.length = message.length := rfl
    omega
  rw [List.take_of_length_le hlen]

theorem env_entry_find_assign_self (key : String) (value : Value N) :
    ∀ chain : List (String × Value N), env_entry_find key chain ≠ none →
      env_entry_find key (env_entry_assign key value chain) = some value
  | [], h => by simp [env_entry_find] at h
  | (symbol, old) :: next, h => by
    by_cases hs : symbol = key
    · simp [env_entry_assign, env_entry_find, hs, value_copy_eq]
    · simp only [env_entry_find, hs, if_false] at h
      simp [env_entry_assign, env_entry_find, hs, env_entry_find_assign_self key value next h]

theorem env_entry_find_assign_other (key other : String) (value : Value N) (hne : other ≠ key) :
    ∀ chain : List (String × Value N),
      env_entry_find other (env_entry_assign key value chain) = env_entry_find other chain
  | [] => rfl
  | (symbol, old) :: next => by
    by_cases hs : symbol = key
    · have : ¬ key = other := fun h => hne h.symm
      subst hs
      simp [env_entry_assign, env_entry_find, this]
    · by_cases ho : symbol = other
      · subst ho
        simp [env_entry_assign, env_entry_find, hs]
      · simp [env_entry_assign, env_entry_find, hs, ho,
          env_entry_find_assign_other key other value hne next]

theorem getD_set_chain {α : Type} (chains : List (List α)) (i j : Nat) (chain : List α) :
    (chains.set i chain).getD j [] =
      if i = j ∧ i < chains.length then chain else chains.getD j [] := by
  simp only [List.getD_eq_getElem?_getD, List.getElem?_set]
  by_cases hij : i = j
  · subst hij
    by_cases hlt : i < chains.length
    · simp [hlt]
    · simp [hlt, List.getElem?_eq_none (Nat.le_of_not_lt hlt)]
  · simp [hij]

theorem env_set_mk (cfg : Config N) (parent : Option (Env N))
    (entries : List (List (String × Value N))) (key : String) (value : Value N) :
    env_set cfg (.mk parent entries) key value =
      .mk parent (entries.set (env_entry_hash_key cfg key)
        (match env_entry_find key (entries.getD (env_entry_hash_key cfg key) []) with
         | some _ => env_entry_assign key value (entries.getD (env_entry_hash_key cfg key) [])
         | none => (key, value) :: entries.getD (env_entry_hash_key cfg key) [])) := by
  unfold env_set
  simp only [env_lookup, Env.entries, Env.parent, value_copy_eq]
  cases env_entry_find key (entries.getD (env_entry_hash_key cfg key) []) <;> rfl

theorem env_set_entries_length (cfg : Config N) (env : Env N) (key : String) (value : Value N) :
    (env_set cfg env key value).entries.length = env.entries.length := by
  obtain ⟨parent, entries⟩ := env
  rw [env_set_mk]
  simp [Env.entries]

theorem env_set_parent (cfg : Config N) (env : Env N) (key : String) (value : Value N) :
    (env_set cfg env key value).parent = env.parent := by
  obtain ⟨parent, entries⟩ := env
  rw [env_set_mk]
  simp [Env.parent]

theorem env_set_is_table (cfg : Config N) (env : Env N) (key : String) (value : Value N)
    (h : env.is_table cfg) : (env_set cfg env key value).is_table cfg :=
  ⟨h.1, by rw [env_set_entries_length]; exact h.2⟩

theorem env_lookup_env_set_self (cfg : Config N) (env : Env N) (key : String) (value : Value N)
    (h : env_entry_hash_key cfg key < env.entries.length) :
    env_lookup cfg (env_set cfg env key value) key = some value := by
  obtain ⟨parent, entries⟩ := env
  simp only [Env.entries] at h
  rw [env_set_mk]
  simp only [env_lookup, Env.entries, getD_set_chain, h, and_self, if_true]
  cases hf : env_entry_find key (entries.getD (env_entry_hash_key cfg key) []) with
  | none => simp [env_entry_find]
  | some old =>
    exact env_entry_find_assign_self key value _ (by rw [hf]; exact Option.some_ne_none _)

theorem env_lookup_env_set_table (cfg : Config N) (env : Env N) (key : String) (value : Value N)
    (h : env.is_table cfg) : env_lookup cfg (env_set cfg env key value) key = some value := by
  apply env_lookup_env_set_self
  rw [h.2]
  exact Nat.mod_lt _ h.1

theorem env_lookup_env_set_other (cfg : Config N) (env : Env N) (key other : String)
    (value : Value N) (hne : other ≠ key) :
    env_lookup cfg (env_set cfg env key value) other = env_lookup cfg env other := by
  obtain ⟨parent, entries⟩ := env
  rw [env_set_mk]
  simp only [env_lookup, Env.entries, getD_set_chain]
  split
  · next hh =>
    rw [← hh.1]
    cases hf : env_entry_find key (entries.getD (env_entry_hash_key cfg key) []) with
    | none =>
      have : ¬ key = other := fun h => hne h.symm
      simp [env_entry_find, this]
    | some old => exact env_entry_find_assign_other key other value hne _
  · rfl

theorem bind_formals_cons (cfg : Config N) (env : Env N) (key : String) (formals : List String)
    (value : Value N) (args : List (Value N)) :
    bind_formals cfg env (key :: formals) (value :: args)
      = bind_formals cfg (env_set cfg env key value) formals args := by
  simp [bind_formals]

theorem bind_formals_parent (cfg : Config N) :
    ∀ (formals : List String) (args : List (Value N)) (env : Env N),
      (bind_formals cfg env formals args).parent = env.parent
  | [], _, _ => by simp [bind_formals]
  | _ :: _, [], _ => by simp [bind_formals]
  | key :: formals, value :: args, env => by
    rw [bind_formals_cons, bind_formals_parent cfg formals args, env_set_parent]

theorem bind_formals_is_table (cfg : Config N) :
    ∀ (formals : List String) (args : List (Value N)) (env : Env N),
      env.is_table cfg → (bind_formals cfg env formals args).is_table cfg
  | [], _, _, h => by simpa [bind_formals] using h
  | _ :: _, [], _, h => by simpa [bind_formals] using h
  | key :: formals, value :: args, env, h => by
    rw [bind_formals_cons]
    exact bind_formals_is_table cfg formals args _ (env_set_is_table cfg env key value h)

theorem env_lookup_bind_formals_other (cfg : Config N) (key : String) :
    ∀ (formals : List String) (args : List (Value N)) (env : Env N), key ∉ formals →
      env_lookup cfg (bind_formals cfg env formals args) key = env_lookup cfg env key
  | [], _, _, _ => by simp [bind_formals]
  | _ :: _, [], _, _ => by simp [bind_formals]
  | formal :: formals, value :: args, env, h => by
    have h1 : key ≠ formal := fun e => h (by simp [e])
    have h2 : key ∉ formals := fun e => h (by simp [e])
    rw [bind_formals_cons, env_lookup_bind_formals_other cfg key formals args _ h2,
      env_lookup_env_set_other cfg env formal key value h1]

theorem env_lookup_bind_formals_at (cfg : Config N) (key : String) (value : Value N) :
    ∀ (formals : List String) (args : List (Value N)) (env : Env N) (i : Nat),
      env.is_table cfg → formals[i]? = some key → args[i]? = some value →
      (∀ j, i < j → formals[j]? ≠ some key) →
      env_lookup cfg (bind_formals cfg env formals args) key = some value
  | [], _, _, _, _, h, _, _ => by simp at h
  | _ :: _, [], _, _, _, _, h, _ => by simp at h
  | formal :: formals, arg :: args, env, 0, ht, hk, hv, hlast => by
    simp only [List.getElem?_cons_zero, Option.some.injEq] at hk hv
    subst hk hv
    have hnot : formal ∉ formals := by
      intro hmem
      obtain ⟨j, hj⟩ := List.getElem?_of_mem hmem
      exact hlast (j + 1) (Nat.succ_pos j) (by simpa using hj)
    rw [bind_formals_cons, env_lookup_bind_formals_other cfg formal formals args _ hnot,
      env_lookup_env_set_table cfg env formal arg ht]
  | formal :: formals, arg :: args, env, i + 1, ht, hk, hv, hlast => by
    rw [bind_formals_cons]
    refine env_lookup_bind_formals_at cfg key value formals args _ i
      (env_set_is_table cfg env formal arg ht) (by simpa using hk) (by simpa using hv) ?_
    intro j hj
    have := hlast (j + 1) (by omega)
    simpa using this

theorem value_sexpression_eval_children_step (ev : Eval N) (child : Value N)
    (children : List (Value N)) (env env1 : Env N) (value : Value N)
    (h : ev child env = some (value, env1)) (hv : value.type ≠ .ERROR_TYPE) :
    value_sexpression_eval_children ev (child :: children) env
      = match value_sexpression_eval_children ev children env1 with
        | none => none
        | some (.failed error, env) => some (.failed error, env)
        | some (.evaluated values, env) => some (.evaluated (value :: values), env) := by
  cases value <;> simp [value_sexpression_eval_children, h, Value.type] at hv ⊢

theorem value_sexpression_eval_children_failed (ev : Eval N) (post : List (Value N))
    {pre : List (Value N)} {env env1 : Env N} {values : List (Value N)}
    (hpre : EvaluatesTo ev pre env values env1) (child : Value N) (e : String) (env2 : Env N)
    (h : ev child env1 = some (.error e, env2)) :
    value_sexpression_eval_children ev (pre ++ child :: post) env
      = some (.failed (.error e), env2) := by
  induction hpre with
  | nil env => simp [value_sexpression_eval_children, h]
  | cons h1 hv _ ih =>
    rw [List.cons_append, value_sexpression_eval_children_step ev _ _ _ _ _ h1 hv, ih h]

theorem value_sexpression_eval_children_evaluated (ev : Eval N)
    {children : List (Value N)} {env env1 : Env N} {values : List (Value N)}
    (h : EvaluatesTo ev children env values env1) :
    value_sexpression_eval_children ev children env = some (.evaluated values, env1) := by
  induction h with
  | nil env => simp [value_sexpression_eval_children]
  | cons h1 hv _ ih =>
    rw [value_sexpression_eval_children_step ev _ _ _ _ _ h1 hv, ih]

theorem value_function_call_loop_bind (cfg : Config N) (m n : Nat) :
    ∀ (pre : List String) (bound : List (Value N)) (rest args : List (Value N)) (env : Env N),
      "&" ∉ pre → bound.length = pre.length →
      value_function_call_loop cfg m n env (pre.map .symbol ++ rest) (bound ++ args)
        = value_function_call_loop cfg m n (bind_formals cfg env pre bound) rest args
  | [], [], rest, args, env, _, _ => by simp [bind_formals]
  | [], _ :: _, _, _, _, _, h => by simp at h
  | _ :: _, [], _, _, _, _, h => by simp at h
  | key :: pre, value :: bound, rest, args, env, hamp, hlen => by
    have hkey : key ≠ "&" := fun h => hamp (by simp [h])
    have hpre : "&" ∉ pre := fun h => hamp (by simp [h])
    have ih := value_function_call_loop_bind cfg m n pre bound rest args
      (env_set cfg env key value) hpre (by simpa using hlen)
    simp only [List.map_cons, List.cons_append, value_function_call_loop, hkey, if_false,
      List.append_eq]
    rw [ih, bind_formals_cons]

theorem env_lookup_set_parent (cfg : Config N) (scope env : Env N) (key : String) :
    env_lookup cfg (scope.set_parent env) key = env_lookup cfg scope key := by
  obtain ⟨parent, entries⟩ := scope
  rfl

theorem set_parent_parent (scope env : Env N) : (scope.set_parent env).parent = some env := by
  obtain ⟨parent, entries⟩ := scope
  rfl

theorem bind_formals_take (cfg : Config N) :
    ∀ (formals : List String) (args : List (Value N)) (env : Env N),
      bind_formals cfg env formals args = bind_formals cfg env (formals.take args.length) args
  | [], _, _ => by simp [bind_formals]
  | _ :: _, [], _ => by simp [bind_formals]
  | key :: formals, value :: args, env => by
    simp only [List.length_cons, List.take_succ_cons, bind_formals_cons]
    exact bind_formals_take cfg formals args _

theorem value_function_call_loop_all_args (cfg : Config N) (m n : Nat) (formals : List String)
    (args : List (Value N)) (env : Env N) (hamp : "&" ∉ formals)
    (hlen : args.length ≤ formals.length) :
    value_function_call_loop cfg m n env (formals.map .symbol) args
      = some (.bound (bind_formals cfg env formals args)
          ((formals.drop args.length).map .symbol)) := by
  have h := value_function_call_loop_bind cfg m n (formals.take args.length) args
    ((formals.drop args.length).map .symbol) [] env
    (fun hm => hamp (List.mem_of_mem_take hm)) (by simp [hlen])
  rw [← List.map_append, List.take_append_drop, List.append_nil] at h
  rw [h, ← bind_formals_take]
  cases hd : List.map Value.symbol (List.drop args.length formals) <;>
    simp [value_function_call_loop]

theorem value_function_call_rest_plain (cfg : Config N) (env : Env N) (formals : List String)
    (hamp : "&" ∉ formals) :
    value_function_call_rest cfg env (formals.map .symbol)
      = some (.bound env (formals.map .symbol)) := by
  cases formals with
  | nil => simp [value_function_call_rest]
  | cons key formals =>
    have hkey : key ≠ "&" := fun h => hamp (by simp [h])
    simp [value_function_call_rest, hkey]

theorem value_eval_single [ValueNumber N] (cfg : Config N) (fuel : Nat)
    (child : Value N) (env : Env N) :
    value_eval cfg (fuel + 1) (.sexpression [child]) env = value_eval cfg fuel child env := by
  rw [value_eval, value_sexpression_eval]
  cases h : value_eval cfg fuel child env with
  | none => simp [value_sexpression_eval_children, h]
  | some r =>
    obtain ⟨value, env1⟩ := r
    cases value <;> simp [value_sexpression_eval_children, h]

theorem env_get_mk_none (cfg : Config N) (entries : List (List (String × Value N)))
    (key : String) :
    env_get cfg (.mk none entries) key =
      match env_lookup cfg (.mk none entries) key with
      | some value => value
      | none => value_error_alloc cfg ("Invalid symbol: " ++ key ++ ".") := by
  rw [env_get]
  cases env_lookup cfg (.mk none entries) key <;> simp [value_copy_eq]

theorem env_get_mk_some (cfg : Config N) (parent : Env N)
    (entries : List (List (String × Value N))) (key : String) :
    env_get cfg (.mk (some parent) entries) key =
      match env_lookup cfg (.mk (some parent) entries) key with
      | some value => value
      | none => env_get cfg parent key := by
  rw [env_get]
  cases env_lookup cfg (.mk (some parent) entries) key <;> simp [value_copy_eq]

theorem env_alloc_is_table : (env_alloc example_config).is_table example_config :=
  ⟨by decide, by rfl⟩

theorem env_entry_assign_length (key : String) (value : Value N) :
    ∀ chain : List (String × Value N), (env_entry_assign key value chain).length = chain.length
  | [] => rfl
  | (symbol, old) :: next => by
    by_cases hs : symbol = key
    · simp [env_entry_assign, hs]
    · simp [env_entry_assign, hs, env_entry_assign_length key value next]

theorem sum_length_set {α : Type} :
    ∀ (chains : List (List α)) (i : Nat) (chain : List α), i < chains.length →
      ((chains.set i chain).map List.length).sum + (chains.getD i []).length
        = (chains.map List.length).sum + chain.length
  | [], _, _, h => by simp at h
  | first :: rest, 0, chain, _ => by
    simp [List.getD_eq_getElem?_getD]
    omega
  | first :: rest, i + 1, chain, h => by
    have ih := sum_length_set rest i chain (by simpa using h)
    simp [List.getD_eq_getElem?_getD] at ih ⊢
    omega

theorem env_set_size (cfg : Config N) (env : Env N) (key : String) (value : Value N)
    (htable : env.is_table cfg) :
    (env_set cfg env key value).size
      = env.size + (if (env_lookup cfg env key).isSome then 0 else 1) := by
  obtain ⟨parent, entries⟩ := env
  have hlt : env_entry_hash_key cfg key < entries.length := by
    have h2 : entries.length = cfg.ENV_ENTRY_KEY_HASH_MODULO := htable.2
    rw [h2]
    exact Nat.mod_lt _ htable.1
  rw [env_set_mk]
  simp only [Env.size, Env.entries, env_lookup]
  have h := sum_length_set entries (env_entry_hash_key cfg key)
  rcases Option.eq_none_or_eq_some
      (env_entry_find key (entries.getD (env_entry_hash_key cfg key) [])) with hf | ⟨old, hf⟩
  · have h' := h ((key, value) :: entries.getD (env_entry_hash_key cfg key) []) hlt
    simp only [List.length_cons] at h'
    simp only [hf, Option.isSome_none, Bool.false_eq_true, if_false]
    omega
  · have h' := h (env_entry_assign key value (entries.getD (env_entry_hash_key cfg key) [])) hlt
    rw [env_entry_assign_length] at h'
    simp only [hf, Option.isSome_some, if_true]
    omega

theorem env_get_of_lookup (cfg : Config N) (env : Env N) (key : String) (value : Value N)
    (h : env_lookup cfg env key = some value) : env_get cfg env key = value := by
  obtain ⟨parent, entries⟩ := env
  cases parent with
  | none => rw [env_get_mk_none, h]
  | some parent => rw [env_get_mk_some, h]

theorem env_get_env_set_other (cfg : Config N) (env : Env N) (key other : String)
    (value : Value N) (hne : other ≠ key) :
    env_get cfg (env_set cfg env key value) other = env_get cfg env other := by
  have hl := env_lookup_env_set_other cfg env key other value hne
  have hp := env_set_parent cfg env key value
  obtain ⟨parent, entries⟩ := env
  rw [env_set_mk] at hl hp ⊢
  cases parent with
  | none => rw [env_get_mk_none, env_get_mk_none, hl]
  | some parent => rw [env_get_mk_some, env_get_mk_some, hl]

theorem env_set_for_ancestor_root (cfg : Config N) (key : String) (value : Value N) :
    ∀ env : Env N,
      (env_set_for_ancestor cfg env key value).root = env_set cfg env.root key value
  | .mk none entries => by
    rw [env_set_for_ancestor, Env.root, env_set_mk, Env.root]
  | .mk (some parent) entries => by
    rw [env_set_for_ancestor, Env.root, Env.root]
    exact env_set_for_ancestor_root cfg key value parent

theorem tables_ne_nil : ∀ env : Env N, env.tables ≠ []
  | .mk none entries => by simp [Env.tables, Env.chain]
  | .mk (some parent) entries => by simp [Env.tables, Env.chain]

theorem env_set_for_ancestor_tables (cfg : Config N) (key : String) (value : Value N) :
    ∀ env : Env N,
      (env_set_for_ancestor cfg env key value).tables.dropLast = env.tables.dropLast
  | .mk none entries => by
    rw [env_set_for_ancestor, env_set_mk]
    simp [Env.tables, Env.chain]
  | .mk (some parent) entries => by
    have ih := env_set_for_ancestor_tables cfg key value parent
    have h1 := tables_ne_nil (env_set_for_ancestor cfg parent key value)
    have h2 := tables_ne_nil parent
    rw [env_set_for_ancestor]
    simp only [Env.tables, Env.chain, List.map_cons, Env.entries] at ih h1 h2 ⊢
    rw [List.dropLast_cons_of_ne_nil h1, List.dropLast_cons_of_ne_nil h2, ih]

theorem env_lookup_entries (cfg : Config N) (p q : Option (Env N))
    (entries : List (List (String × Value N))) (key : String) :
    env_lookup cfg (.mk p entries) key = env_lookup cfg (.mk q entries) key := rfl

theorem validate_arg_types_numbers (cfg : Config N) (symbol : String) :
    ∀ (xs : List N) (i : Nat),
      validate_arg_types cfg symbol .NUMBER_TYPE i (xs.map .number) = none
  | [], _ => rfl
  | x :: xs, i => by
    simp [validate_arg_types, Value.type, validate_arg_types_numbers cfg symbol xs (i + 1)]

theorem value_symbol_arithmetic_loop_add [ValueNumber N] (cfg : Config N) :
    ∀ (xs : List N) (left : N),
      value_symbol_arithmetic_loop cfg "+" left (xs.map .number)
        = some (.number (xs.foldl ValueNumber.add left))
  | [], _ => rfl
  | x :: xs, left => by
    simp [value_symbol_arithmetic_loop, value_symbol_arithmetic_loop_add cfg xs]

theorem value_symbol_arithmetic_loop_sub [ValueNumber N] (cfg : Config N) :
    ∀ (xs : List N) (left : N),
      value_symbol_arithmetic_loop cfg "-" left (xs.map .number)
        = some (.number (xs.foldl ValueNumber.sub left))
  | [], _ => rfl
  | x :: xs, left => by
    simp [value_symbol_arithmetic_loop, value_symbol_arithmetic_loop_sub cfg xs]

theorem value_symbol_arithmetic_loop_mul [ValueNumber N] (cfg : Config N) :
    ∀ (xs : List N) (left : N),
      value_symbol_arithmetic_loop cfg "*" left (xs.map .number)
        = some (.number (xs.foldl ValueNumber.mul left))
  | [], _ => rfl
  | x :: xs, left => by
    simp [value_symbol_arithmetic_loop, value_symbol_arithmetic_loop_mul cfg xs]

theorem value_symbol_arithmetic_loop_div [ValueNumber N] (cfg : Config N) :
    ∀ (xs : List N) (left : N),
      value_symbol_arithmetic_loop cfg "/" left (xs.map .number)
        = if xs.any (fun y => ValueNumber.eq y ValueNumber.zero) then
            some (value_error_alloc cfg "Division by zero.")
          else some (.number (xs.foldl ValueNumber.div left))
  | [], _ => rfl
  | x :: xs, left => by
    by_cases hx : ValueNumber.eq x (ValueNumber.zero : N) = true
    · simp [value_symbol_arithmetic_loop, hx]
    · simp [value_symbol_arithmetic_loop, hx, value_symbol_arithmetic_loop_div cfg xs]

/-- The chain loop walks over Numbers that do not stop it: with `or = b` and
`and = !b`, a Number stops the chain when its truth value is `b`. -/
theorem value_symbol_condition_chain_loop_continue [ValueNumber N] (cfg : Config N)
    (symbol : String) (b : Bool)
    (hone : number_true (ValueNumber.one : N) = true)
    (hzero : number_true (ValueNumber.zero : N) = false) :
    ∀ (pre : List N) (rest : List (Value N)) (i : Nat) (result : N),
      (∀ x ∈ pre, number_true x = !b) → (i = 0 ∨ number_true result = !b) →
      ∃ result' : N, (i + pre.length = 0 ∨ number_true result' = !b)
        ∧ value_symbol_condition_chain_loop cfg symbol b (!b) i result
            (pre.map .number ++ rest)
          = value_symbol_condition_chain_loop cfg symbol b (!b) (i + pre.length) result' rest
  | [], rest, i, result, _, hres => ⟨result, by simpa using hres, by simp⟩
  | x :: pre, rest, i, result, hpre, hres => by
    have hx : number_true x = !b := hpre x (by simp)
    have hpre' : ∀ y ∈ pre, number_true y = !b := fun y hy => hpre y (by simp [hy])
    have hnew : ∃ new : N, number_true new = (!b) ∧
        value_symbol_condition_chain_loop cfg symbol b (!b) i result
            ((x :: pre).map .number ++ rest)
          = value_symbol_condition_chain_loop cfg symbol b (!b) (i + 1) new
              (pre.map .number ++ rest) := by
      by_cases hi : i = 0
      · refine ⟨x, hx, ?_⟩
        subst hi
        cases b <;> simp [value_symbol_condition_chain_loop, hx] at hx ⊢
      · have hr : number_true result = !b := hres.resolve_left hi
        cases b
        · refine ⟨ValueNumber.one, by simpa using hone, ?_⟩
          simp only [Bool.not_false] at hx hr
          simp [value_symbol_condition_chain_loop, hi, hx, hr, number_of_bool, hone]
        · refine ⟨ValueNumber.zero, by simpa using hzero, ?_⟩
          simp only [Bool.not_true] at hx hr
          simp [value_symbol_condition_chain_loop, hi, hx, hr, number_of_bool, hzero]
    obtain ⟨new, hn, hstep⟩ := hnew
    obtain ⟨result', hr', hrest⟩ :=
      value_symbol_condition_chain_loop_continue cfg symbol b hone hzero pre rest (i + 1) new
        hpre' (Or.inr hn)
    refine ⟨result', ?_, ?_⟩
    · right
      rcases hr' with h | h
      · omega
      · exact h
    · rw [hstep, hrest]
      simp [Nat.add_assoc, Nat.add_comm 1]

/-- A Number that stops the chain ends the loop with a Number. -/
theorem value_symbol_condition_chain_loop_stop [ValueNumber N] (cfg : Config N)
    (symbol : String) (b : Bool)
    (hone : number_true (ValueNumber.one : N) = true)
    (hzero : number_true (ValueNumber.zero : N) = false)
    (i : Nat) (result x : N) (rest : List (Value N))
    (hx : number_true x = b) (hres : i = 0 ∨ number_true result = !b) :
    ∃ n : N, value_symbol_condition_chain_loop cfg symbol b (!b) i result (.number x :: rest)
      = .number n := by
  by_cases hi : i = 0
  · subst hi
    refine ⟨x, ?_⟩
    cases b <;> simp [value_symbol_condition_chain_loop, hx]
  · have hr : number_true result = !b := hres.resolve_left hi
    cases b
    · refine ⟨ValueNumber.zero, ?_⟩
      simp only [Bool.not_false] at hr
      simp [value_symbol_condition_chain_loop, hi, hx, hr, number_of_bool, hzero]
    · refine ⟨ValueNumber.one, ?_⟩
      simp only [Bool.not_true] at hr
      simp [value_symbol_condition_chain_loop, hi, hx, hr, number_of_bool, hone]

theorem value_symbol_condition_chain_loop_bad [ValueNumber N] (cfg : Config N)
    (symbol : String) (or and : Bool) (i : Nat) (result : N) (bad : Value N)
    (post : List (Value N)) (hbad : bad.type ≠ .NUMBER_TYPE) :
    value_symbol_condition_chain_loop cfg symbol or and i result (bad :: post)
      = arg_type_error cfg symbol i .NUMBER_TYPE bad.type := by
  cases bad <;> simp [value_symbol_condition_chain_loop, Value.type] at hbad ⊢

theorem first_with_truth (b : Bool) (p : N → Bool) :
    ∀ pre : List N, (∃ x ∈ pre, p x = b) →
      ∃ (before : List N) (x : N) (behind : List N),
        pre = before ++ x :: behind ∧ p x = b ∧ ∀ y ∈ before, p y = !b
  | [], h => by simp at h
  | y :: pre, h => by
    by_cases hy : p y = b
    · exact ⟨[], y, pre, rfl, hy, by simp⟩
    · have h' : ∃ x ∈ pre, p x = b := by
        obtain ⟨x, hx, hpx⟩ := h
        rcases List.mem_cons.mp hx with rfl | hx
        · exact absurd hpx hy
        · exact ⟨x, hx, hpx⟩
      obtain ⟨before, x, behind, hsplit, hpx, hbefore⟩ := first_with_truth b p pre h'
      refine ⟨y :: before, x, behind, by simp [hsplit], hpx, ?_⟩
      intro z hz
      rcases List.mem_cons.mp hz with rfl | hz
      · cases b <;> simp at hy ⊢ <;> exact hy
      · exact hbefore z hz

theorem arg_type_error_number (cfg : Config N) (symbol : String) (index : Nat)
    (got : ValueType) :
    arg_type_error cfg symbol index .NUMBER_TYPE got
      = value_error_alloc cfg (symbol ++ ": Invalid " ++ toString index
          ++ " argument type. Expected Number. Got " ++ value_type_names got ++ ".") := by
  have h : ∀ text : String, text ++ " argument type. Expected " ++ "Number" ++ ". Got "
      = text ++ " argument type. Expected Number. Got " := by
    intro text
    rw [String.append_assoc, String.append_assoc]
    rfl
  unfold arg_type_error
  rw [show value_type_names .NUMBER_TYPE = "Number" from rfl, h]

theorem value_symbol_condition_chain_eval_reaches [ValueNumber N] (cfg : Config N)
    (symbol : String) (b : Bool) (hb : (decide (symbol = "||")) = b)
    (hnb : (!b && decide (symbol = "&&")) = !b)
    (hone : number_true (ValueNumber.one : N) = true)
    (hzero : number_true (ValueNumber.zero : N) = false)
    (pre : List N) (bad : Value N) (post : List (Value N))
    (hbad : bad.type ≠ .NUMBER_TYPE) (hlen : 2 ≤ pre.length + 1 + post.length) :
    ((∀ x ∈ pre, number_true x = !b) →
      value_symbol_condition_chain_eval cfg symbol (pre.map .number ++ bad :: post)
        = arg_type_error cfg symbol pre.length .NUMBER_TYPE bad.type)
    ∧ ((∃ x ∈ pre, number_true x = b) →
      ∃ n : N, value_symbol_condition_chain_eval cfg symbol (pre.map .number ++ bad :: post)
        = .number n) := by
  have hnot : ¬ (pre.map (Value.number : N → Value N) ++ bad :: post).length < 2 := by
    simp
    omega
  constructor
  · intro hpre
    obtain ⟨result', _, hloop⟩ :=
      value_symbol_condition_chain_loop_continue cfg symbol b hone hzero pre (bad :: post) 0
        ValueNumber.zero hpre (Or.inl rfl)
    simp only [value_symbol_condition_chain_eval, if_neg hnot, hb, hnb]
    rw [hloop, value_symbol_condition_chain_loop_bad cfg symbol _ _ _ _ bad post hbad]
    simp
  · intro hstop
    obtain ⟨before, x, behind, hsplit, hx, hbefore⟩ := first_with_truth b number_true pre hstop
    obtain ⟨result', hr', hloop⟩ :=
      value_symbol_condition_chain_loop_continue cfg symbol b hone hzero before
        (.number x :: (behind.map .number ++ bad :: post)) 0 ValueNumber.zero hbefore
        (Or.inl rfl)
    obtain ⟨n, hn⟩ := value_symbol_condition_chain_loop_stop cfg symbol b hone hzero
      (0 + before.length) result' x (behind.map .number ++ bad :: post) hx hr'
    refine ⟨n, ?_⟩
    simp only [value_symbol_condition_chain_eval, if_neg hnot, hb, hnb]
    rw [hsplit]
    simp only [List.map_append, List.map_cons, List.append_assoc, List.cons_append]
    rw [hloop, hn]

theorem number_true_one_rat : number_true (ValueNumber.one : ℚ) = true := by
  simp [number_true, ValueNumber.eq, ValueNumber.one, ValueNumber.zero]

theorem number_true_zero_rat : number_true (ValueNumber.zero : ℚ) = false := by
  simp [number_true, ValueNumber.eq, ValueNumber.zero]

theorem bind_formals_split (cfg : Config N) :
    ∀ (formals : List String) (args : List (Value N)) (k : Nat) (env : Env N),
      bind_formals cfg (bind_formals cfg env formals (args.take k)) (formals.drop k)
          (args.drop k)
        = bind_formals cfg env formals args
  | [], _, _, _ => by simp [bind_formals]
  | _ :: _, [], _, _ => by simp [bind_formals]
  | _ :: _, _ :: _, 0, _ => by simp [bind_formals]
  | key :: formals, value :: args, k + 1, env => by
    simp only [List.take_succ_cons, List.drop_succ_cons, bind_formals_cons]
    exact bind_formals_split cfg formals args k _

theorem value_symbol_while_loop_rounds [ValueNumber N] (cfg : Config N) (ev : Eval N)
    (condition body : Value N) (fuel : Nat) :
    ∀ (n : Nat) (numbers : Nat → N) (values : Nat → Value N) (before after : Nat → Env N)
      (result : Value N),
      (∀ i : Nat, i < n →
        ev condition (before i) = some (.number (numbers i), after i)
        ∧ number_true (numbers i) = true
        ∧ ev body (after i) = some (values i, before (i + 1))) →
      value_symbol_while_loop cfg ev condition body (n + fuel) result (before 0)
        = value_symbol_while_loop cfg ev condition body fuel
            (if n = 0 then result else values (n - 1)) (before n)
  | 0, _, _, _, _, _, _ => by simp
  | n + 1, numbers, values, before, after, result, h => by
    obtain ⟨hc, ht, hb⟩ := h 0 (Nat.succ_pos n)
    have ih := value_symbol_while_loop_rounds cfg ev condition body fuel n
      (fun i => numbers (i + 1)) (fun i => values (i + 1)) (fun i => before (i + 1))
      (fun i => after (i + 1)) (values 0) (fun i hi => h (i + 1) (Nat.succ_lt_succ hi))
    rw [show n + 1 + fuel = (n + fuel) + 1 by omega, value_symbol_while_loop]
    simp only [value_copy_eq, hc, ht, if_true, hb]
    rw [ih]
    cases n with
    | zero => simp
    | succ n => simp

theorem value_symbol_head_eval_first (cfg : Config N) (child : Value N)
    (children : List (Value N)) :
    value_symbol_head_eval cfg [.qexpression (child :: children)]
      = some (.qexpression [child]) :=
  rfl

theorem value_symbol_head_eval_string (cfg : Config N) (s : String) (h : s.length ≠ 0) :
    value_symbol_head_eval cfg [.string s] = some (.string ⟨s.data.take 1⟩) := by
  simp [value_symbol_head_eval, h]

theorem value_symbol_tail_eval_rest (cfg : Config N) (child : Value N)
    (children : List (Value N)) :
    value_symbol_tail_eval cfg [.qexpression (child :: children)]
      = some (.qexpression children) :=
  rfl

theorem value_symbol_join_eval_head_tail (cfg : Config N) (child : Value N)
    (children : List (Value N)) :
    value_symbol_join_eval cfg [.qexpression [child], .qexpression children]
      = some (.qexpression (child :: children)) := by
  simp [value_symbol_join_eval, Value.type, validate_arg_types, value_symbol_join_loop,
    value_extend_children, Value.children, Value.set_children]

theorem validate_arg_types_all (cfg : Config N) (symbol : String) (expected : ValueType) :
    ∀ (args : List (Value N)) (i : Nat), (∀ arg ∈ args, arg.type = expected) →
      validate_arg_types cfg symbol expected i args = none
  | [], _, _ => rfl
  | arg :: args, i, h => by
    rw [validate_arg_types, if_pos (h arg (List.mem_cons_self _ _))]
    exact validate_arg_types_all cfg symbol expected args (i + 1)
      (fun a ha => h a (List.mem_cons_of_mem _ ha))

theorem validate_arg_types_some (cfg : Config N) (symbol : String) (expected : ValueType) :
    ∀ (args : List (Value N)) (i : Nat), ¬ (∀ arg ∈ args, arg.type = expected) →
      ∃ message, validate_arg_types cfg symbol expected i args = some (.error message)
  | [], _, h => absurd (fun _ ha => absurd ha (List.not_mem_nil _)) h
  | arg :: args, i, h => by
    rw [validate_arg_types]
    by_cases ht : arg.type = expected
    · rw [if_pos ht]
      refine validate_arg_types_some cfg symbol expected args (i + 1) (fun hall => h ?_)
      intro a ha
      rcases List.mem_cons.1 ha with rfl | ha
      · exact ht
      · exact hall a ha
    · rw [if_neg ht]
      exact ⟨_, rfl⟩

theorem value_symbol_join_loop_children :
    ∀ (children : List (List (Value N))) (left : List (Value N)),
      value_symbol_join_loop value_extend_children (.qexpression left)
          (children.map .qexpression)
        = some (.qexpression (left ++ children.flatten))
  | [], left => by simp [value_symbol_join_loop]
  | child :: children, left => by
    simp only [List.map_cons, value_symbol_join_loop, value_extend_children, Value.children,
      Value.set_children]
    rw [value_symbol_join_loop_children children (left ++ child)]
    simp

theorem value_symbol_join_loop_string :
    ∀ (strings : List String) (left : String),
      value_symbol_join_loop value_extend_string (.string left)
          (strings.map (.string : String → Value N))
        = some (.string (strings.foldl (fun r s => r ++ s) left))
  | [], left => by simp [value_symbol_join_loop]
  | s :: strings, left => by
    simp only [List.map_cons, value_symbol_join_loop, value_extend_string, List.foldl_cons]
    exact value_symbol_join_loop_string strings (left ++ s)

theorem value_eq_children_iff [ValueNumber N] :
    ∀ xs ys : List (Value N),
      value_eq_children xs ys = true
        ↔ xs.length = ys.length ∧ ∀ pair ∈ xs.zip ys, value_eq pair.1 pair.2 = true
  | [], [] => by simp [value_eq_children]
  | [], _ :: _ => by simp [value_eq_children]
  | _ :: _, [] => by simp [value_eq_children]
  | x :: xs, y :: ys => by
    simp [value_eq_children, value_eq_children_iff xs ys]
    tauto

theorem value_eq_type [ValueNumber N] (a b : Value N) (h : value_eq a b = true) :
    a.type = b.type := by
  cases a <;> cases b <;> first | rfl | (simp [value_eq] at h)

mutual
theorem value_eq_self [ValueNumber N] :
    ∀ value : Value N, value.nan_free = true → value_eq value value = true
  | .error _, _ => by simp [value_eq]
  | .builtin _, _ => by simp [value_eq]
  | .lambda _ formals body, h => by
    simp only [Value.nan_free, Bool.and_eq_true] at h
    simp [value_eq, value_eq_self formals h.1, value_eq_self body h.2]
  | .number _, h => by simpa [value_eq, Value.nan_free] using h
  | .sexpression cs, h => by
    simp only [Value.nan_free] at h
    simp [value_eq, value_eq_children_self cs h]
  | .qexpression cs, h => by
    simp only [Value.nan_free] at h
    simp [value_eq, value_eq_children_self cs h]
  | .string _, _ => by simp [value_eq]
  | .symbol _, _ => by simp [value_eq]
theorem value_eq_children_self [ValueNumber N] :
    ∀ cs : List (Value N), nan_free_children cs = true → value_eq_children cs cs = true
  | [], _ => by simp [value_eq_children]
  | c :: cs, h => by
    simp only [nan_free_children, Bool.and_eq_true] at h
    simp [value_eq_children, value_eq_self c h.1, value_eq_children_self cs h.2]
end

theorem intercalate_go_eq (separator : String) :
    ∀ (strings : List String) (acc : String),
      String.intercalate.go acc separator strings
        = acc ++ String.intercalate.go "" separator strings
  | [], acc => by simp [String.intercalate.go]
  | s :: strings, acc => by
    rw [String.intercalate.go, intercalate_go_eq separator strings (acc ++ separator ++ s),
      String.intercalate.go, intercalate_go_eq separator strings ("" ++ separator ++ s)]
    simp [String.append_assoc]

theorem intercalate_cons_cons (separator first second : String) (strings : List String) :
    separator.intercalate (first :: second :: strings)
      = first ++ separator ++ separator.intercalate (second :: strings) := by
  rw [String.intercalate, String.intercalate, String.intercalate.go,
    intercalate_go_eq separator strings (first ++ separator ++ second),
    intercalate_go_eq separator strings second]
  simp [String.append_assoc]

theorem value_expression_print_loop_eq [ValueNumber N] (cfg : Config N) :
    ∀ children : List (Value N),
      value_expression_print_loop cfg children
        = " ".intercalate (children.map (value_print cfg))
  | [] => by simp [value_expression_print_loop, String.intercalate]
  | [child] => by
    simp [value_expression_print_loop, String.intercalate, String.intercalate.go]
  | child :: second :: children => by
    rw [value_expression_print_loop, value_expression_print_loop_eq cfg (second :: children)]
    simp only [List.map_cons, intercalate_cons_cons]
    simp

theorem value_symbol_variable_loop_set (cfg : Config N) :
    ∀ (keys : List String) (values : List (Value N)) (env : Env N),
      value_symbol_variable_loop cfg "=" (keys.map .symbol) values env
        = bind_formals cfg env keys values
  | [], _, _ => by simp [value_symbol_variable_loop, bind_formals]
  | _ :: _, [], _ => by simp [value_symbol_variable_loop, bind_formals]
  | key :: keys, value :: values, env => by
    rw [List.map_cons, value_symbol_variable_loop, if_pos rfl, bind_formals_cons]
    exact value_symbol_variable_loop_set cfg keys values _

theorem value_symbol_variable_loop_def_root (cfg : Config N) :
    ∀ (keys : List String) (values : List (Value N)) (env : Env N),
      (value_symbol_variable_loop cfg "def" (keys.map .symbol) values env).root
        = bind_formals cfg env.root keys values
  | [], _, _ => by simp [value_symbol_variable_loop, bind_formals]
  | _ :: _, [], _ => by simp [value_symbol_variable_loop, bind_formals]
  | key :: keys, value :: values, env => by
    rw [List.map_cons, value_symbol_variable_loop, if_neg (by decide), if_pos rfl,
      bind_formals_cons, ← env_set_for_ancestor_root]
    exact value_symbol_variable_loop_def_root cfg keys values _

theorem all_symbols_map : ∀ symbols : List (Value N),
    symbols.all (fun s => s.type = .SYMBOL_TYPE) = true →
      ∃ keys : List String, symbols = keys.map .symbol
  | [], _ => ⟨[], rfl⟩
  | s :: symbols, h => by
    simp only [List.all_cons, Bool.and_eq_true, decide_eq_true_eq] at h
    obtain ⟨keys, rfl⟩ := all_symbols_map symbols h.2
    have h1 := h.1
    cases s with
    | symbol key => exact ⟨key :: keys, rfl⟩
    | _ => exact absurd h1 (by simp [Value.type])

theorem value_symbol_variable_eval_cases (cfg : Config N) (symbol : String)
    (hs : symbol = "=" ∨ symbol = "def") (args : List (Value N)) (env : Env N) :
    ∃ (value : Value N) (env_after : Env N),
      value_symbol_variable_eval cfg symbol args env = (value, env_after)
      ∧ (value.type = .ERROR_TYPE
          ↔ args.length < 2
            ∨ (∃ first rest, args = first :: rest ∧ first.type ≠ .QEXPRESSION_TYPE)
            ∨ (∃ symbols rest, args = .qexpression symbols :: rest
                ∧ ∃ s ∈ symbols, s.type ≠ .SYMBOL_TYPE)
            ∨ (∃ symbols rest, args = .qexpression symbols :: rest
                ∧ symbols.length ≠ rest.length))
      ∧ (value.type = .ERROR_TYPE → env_after = env)
      ∧ (value.type ≠ .ERROR_TYPE →
          value = .sexpression []
          ∧ ∃ (keys : List String) (values : List (Value N)),
              args = .qexpression (keys.map .symbol) :: values
              ∧ keys.length = values.length
              ∧ ((binding_scope symbol env).is_table cfg →
                  ∀ (i : Nat) (key : String) (bound : Value N),
                    keys[i]? = some key → values[i]? = some bound →
                    (∀ j : Nat, i < j → keys[j]? ≠ some key) →
                    env_lookup cfg (binding_scope symbol env_after) key = some bound)) := by
  match args with
  | [] =>
    refine ⟨_, _, rfl, ?_, fun _ => rfl, fun h => absurd rfl h⟩
    simp [value_error_alloc, Value.type]
  | [only] =>
    refine ⟨value_error_alloc cfg (symbol ++ ": Required at least one value."), env, ?_, ?_,
      fun _ => rfl, fun h => absurd rfl h⟩
    · cases only <;> rfl
    · simp [value_error_alloc, Value.type]
  | first :: second :: rest =>
    by_cases hq : first.type = .QEXPRESSION_TYPE
    · obtain ⟨symbols, rfl⟩ : ∃ symbols, first = .qexpression symbols := by
        cases first with
        | qexpression symbols => exact ⟨symbols, rfl⟩
        | _ => exact absurd hq (by simp [Value.type])
      by_cases hall : symbols.all (fun s => s.type = .SYMBOL_TYPE) = true
      · obtain ⟨keys, rfl⟩ := all_symbols_map symbols hall
        by_cases hlen : (keys.map (.symbol : String → Value N)).length = (second :: rest).length
        · have hlen2 : keys.length = (second :: rest).length := by simpa using hlen
          refine ⟨.sexpression [],
            value_symbol_variable_loop cfg symbol (keys.map .symbol) (second :: rest) env,
            ?_, ?_, ?_, ?_⟩
          · simp only [value_symbol_variable_eval, hall, hlen, if_true]
          · constructor
            · intro h; exact absurd h (by simp [Value.type])
            · rintro (h | ⟨f, r, h, hf⟩ | ⟨ss, r, h, s, hsm, hst⟩ | ⟨ss, r, h, hne⟩)
              · simp at h; omega
              · simp only [List.cons.injEq] at h
                exact absurd (h.1 ▸ rfl) hf
              · simp only [List.cons.injEq, Value.qexpression.injEq] at h
                obtain ⟨rfl, -⟩ := h
                obtain ⟨key, -, rfl⟩ := List.mem_map.1 hsm
                exact absurd rfl hst
              · simp only [List.cons.injEq, Value.qexpression.injEq] at h
                obtain ⟨rfl, rfl⟩ := h
                exact absurd hlen hne
          · intro h; exact absurd h (by simp [Value.type])
          · intro _
            refine ⟨rfl, keys, second :: rest, rfl, hlen2, ?_⟩
            intro ht i key bound hk hv hlast
            rcases hs with rfl | rfl
            · simp only [binding_scope, if_neg (show ("=" : String) ≠ "def" by decide)] at ht ⊢
              rw [value_symbol_variable_loop_set]
              exact env_lookup_bind_formals_at cfg key bound keys _ env i ht hk hv hlast
            · simp only [binding_scope, if_true] at ht ⊢
              rw [value_symbol_variable_loop_def_root]
              exact env_lookup_bind_formals_at cfg key bound keys _ env.root i ht hk hv hlast
        · refine ⟨value_error_alloc cfg
              (symbol ++ ": Arguments count not equals to values count."), env, ?_, ?_,
            fun _ => rfl, fun h => absurd rfl h⟩
          · simp only [value_symbol_variable_eval, hall, hlen, if_true, if_false]
          · simp only [value_error_alloc, Value.type, true_iff]
            exact Or.inr (Or.inr (Or.inr ⟨_, _, rfl, hlen⟩))
      · refine ⟨value_error_alloc cfg (symbol ++ ": Argument not a symbol."), env, ?_, ?_,
          fun _ => rfl, fun h => absurd rfl h⟩
        · simp only [value_symbol_variable_eval, hall]
          rfl
        · simp only [value_error_alloc, Value.type, true_iff]
          refine Or.inr (Or.inr (Or.inl ⟨symbols, _, rfl, ?_⟩))
          by_contra hno
          apply hall
          rw [List.all_eq_true]
          intro s hs'
          by_contra hst
          exact hno ⟨s, hs', by simpa using hst⟩
    · refine ⟨value_error_alloc cfg (symbol ++ ": Arguments not in \x7b\x7d."), env, ?_, ?_,
        fun _ => rfl, fun h => absurd rfl h⟩
      · cases first with
        | qexpression symbols => exact absurd rfl hq
        | _ => rfl
      · simp only [value_error_alloc, Value.type, true_iff]
        exact Or.inr (Or.inl ⟨first, _, rfl, hq⟩)

set_option maxRecDepth 100000

theorem example_env_is_table : example_env.is_table example_config :=
  ⟨by decide, by rfl⟩

/-! ## The evaluator: S-expressions -/

/-- C1. The children of an S-expression are evaluated from left to right, each
in the environment its left neighbour left. When the children `pre` before
child `i` give values that are no errors and child `i` gives an error, the
S-expression evaluates to exactly that error, in the environment child `i`
left: no function is called and the children `post` behind it, whatever they
are, are not evaluated and leave no trace in the environment. -/
theorem value_eval_first_error [ValueNumber N] (cfg : Config N) (fuel : Nat)
    (pre post : List (Value N)) (child : Value N) (env env1 env2 : Env N)
    (values : List (Value N)) (e : String)
    (hpre : EvaluatesTo (value_eval cfg fuel) pre env values env1)
    (hchild : value_eval cfg fuel child env1 = some (.error e, env2)) :
    value_eval cfg (fuel + 1) (.sexpression (pre ++ child :: post)) env
      = some (.error e, env2) := by
  rw [value_eval, value_sexpression_eval,
    value_sexpression_eval_children_failed _ post hpre child e env2 hchild]

/-- C1 at `(+ 1 (error "boom") (def {x} 5))`: the result is the error of the
third child, and the `def` behind it has not touched the environment. -/
theorem value_eval_first_error_witness :
    EvaluatesTo (value_eval example_config 2) [.symbol "+", .number 1] example_env
        [.builtin .value_symbol_add_eval, .number 1] example_env
    ∧ value_eval example_config 2 (.sexpression [.symbol "error", .string "boom"]) example_env
        = some (.error "boom", example_env)
    ∧ value_eval example_config 3
        (.sexpression ([.symbol "+", .number 1]
          ++ .sexpression [.symbol "error", .string "boom"]
            :: [.sexpression [.symbol "def", .qexpression [.symbol "x"], .number 5]]))
        example_env
        = some (.error "boom", example_env) :=
  have h1 : EvaluatesTo (value_eval example_config 2) [.symbol "+", .number 1] example_env
      [.builtin .value_symbol_add_eval, .number 1] example_env :=
    .cons (by rfl) (by decide) (.cons (by rfl) (by decide) (.nil _))
  have h2 : value_eval example_config 2 (.sexpression [.symbol "error", .string "boom"])
      example_env = some (.error "boom", example_env) := by rfl
  ⟨h1, h2, value_eval_first_error example_config 2 _ _ _ _ _ _ _ _ h1 h2⟩

/-! ## Function calls -/

/-- C2. A lambda whose formals hold no `&`, called with as many arguments as
it has formals, returns what the evaluation of its body, retagged as an
S-expression, returns in the lambda's scope after the binding. That scope has
the caller's environment as its parent; a symbol that is no formal is bound
there as it was in the captured scope; and formal `i` is bound to argument
`i` (when the same symbol stands again further right, its last position
counts). -/
theorem value_function_call_binds_all [ValueNumber N] (cfg : Config N) (fuel : Nat)
    (ev : Eval N) (f_env env : Env N) (formals : List String) (body args : List (Value N))
    (hamp : "&" ∉ formals) (hargs : args.length = formals.length)
    (htable : f_env.is_table cfg) :
    value_function_call cfg fuel ev
        (.lambda f_env (.qexpression (formals.map .symbol)) (.qexpression body)) env args
      = leave_scope (ev (.sexpression body)
          ((bind_formals cfg f_env formals args).set_parent env))
    ∧ ((bind_formals cfg f_env formals args).set_parent env).parent = some env
    ∧ (∀ key, key ∉ formals →
        env_lookup cfg ((bind_formals cfg f_env formals args).set_parent env) key
          = env_lookup cfg f_env key)
    ∧ (∀ (i : Nat) (key : String) (value : Value N),
        formals[i]? = some key → args[i]? = some value →
        (∀ j : Nat, i < j → formals[j]? ≠ some key) →
        env_lookup cfg ((bind_formals cfg f_env formals args).set_parent env) key
          = some value) := by
  refine ⟨?_, set_parent_parent _ _, ?_, ?_⟩
  · simp only [value_function_call, Value.children, List.length_map]
    rw [value_function_call_loop_all_args cfg _ _ formals args f_env hamp (le_of_eq hargs)]
    simp [hargs, value_function_call_rest, Value.as_sexpression, value_copy_eq]
  · intro key hkey
    rw [env_lookup_set_parent, env_lookup_bind_formals_other cfg key formals args f_env hkey]
  · intro i key value hk hv hlast
    rw [env_lookup_set_parent]
    exact env_lookup_bind_formals_at cfg key value formals args f_env i htable hk hv hlast

/-- C2 at `(\ {x y} {+ x y}) 10 32`: the call, and the whole line as the
evaluator reads it, give the number 42 and leave the environment as it was. -/
theorem value_function_call_binds_all_witness :
    "&" ∉ ["x", "y"]
    ∧ [Value.number (10 : ℚ), Value.number 32].length = ["x", "y"].length
    ∧ (env_alloc example_config).is_table example_config
    ∧ value_function_call example_config 2 (value_eval example_config 2)
        (.lambda (env_alloc example_config) (.qexpression [.symbol "x", .symbol "y"])
          (.qexpression [.symbol "+", .symbol "x", .symbol "y"]))
        example_env [.number 10, .number 32] = some (.number 42, example_env)
    ∧ value_eval example_config 3
        (.sexpression [.sexpression [.symbol "\\", .qexpression [.symbol "x", .symbol "y"],
            .qexpression [.symbol "+", .symbol "x", .symbol "y"]], .number 10, .number 32])
        example_env = some (.number 42, example_env) := by
  refine ⟨by decide, rfl, env_alloc_is_table, ?_, ?_⟩
  · have h := (value_function_call_binds_all example_config 2 (value_eval example_config 2)
      (env_alloc example_config) example_env ["x", "y"]
      [.symbol "+", .symbol "x", .symbol "y"] [.number 10, .number 32]
      (by decide) rfl env_alloc_is_table).1
    have hbody : leave_scope (value_eval example_config 2
        (.sexpression [.symbol "+", .symbol "x", .symbol "y"])
        ((bind_formals example_config (env_alloc example_config) ["x", "y"]
          [.number 10, .number 32]).set_parent example_env))
        = some (.number (10 + 32), example_env) := by rfl
    rw [hbody] at h
    rw [show (["x", "y"].map Value.symbol : List (Value ℚ)) = [.symbol "x", .symbol "y"]
      from rfl] at h
    rw [h]
    norm_num
  · have h : value_eval example_config 3
        (.sexpression [.sexpression [.symbol "\\", .qexpression [.symbol "x", .symbol "y"],
            .qexpression [.symbol "+", .symbol "x", .symbol "y"]], .number 10, .number 32])
        example_env = some (.number (10 + 32), example_env) := by rfl
    rw [h]
    norm_num

/-- C3. Currying: a lambda whose formals hold no `&`, called with fewer
arguments than it has formals, returns a lambda and leaves the environment as
it was, whatever the evaluator would do with the body. The formals of the
lambda returned are the formals behind the first `k`, in order, its body is
the body, and its captured scope is the old one with the first `k` formals
bound to the `k` arguments: the other symbols are bound as before, and formal
`i` is bound to argument `i` (the last of equal symbols among the first `k`
counts). -/
theorem value_function_call_curry [ValueNumber N] (cfg : Config N) (fuel : Nat)
    (ev : Eval N) (f_env env : Env N) (formals : List String) (body : Value N)
    (args : List (Value N)) (hamp : "&" ∉ formals) (hargs : args.length < formals.length)
    (htable : f_env.is_table cfg) :
    value_function_call cfg fuel ev
        (.lambda f_env (.qexpression (formals.map .symbol)) body) env args
      = some (.lambda (bind_formals cfg f_env formals args)
          (.qexpression ((formals.drop args.length).map .symbol)) body, env)
    ∧ (∀ key, key ∉ formals.take args.length →
        env_lookup cfg (bind_formals cfg f_env formals args) key = env_lookup cfg f_env key)
    ∧ (∀ (i : Nat) (key : String) (value : Value N),
        formals[i]? = some key → args[i]? = some value →
        (∀ j : Nat, i < j → j < args.length → formals[j]? ≠ some key) →
        env_lookup cfg (bind_formals cfg f_env formals args) key = some value) := by
  refine ⟨?_, ?_, ?_⟩
  · simp only [value_function_call, Value.children, List.length_map]
    rw [value_function_call_loop_all_args cfg _ _ formals args f_env hamp (le_of_lt hargs)]
    have hdrop : "&" ∉ formals.drop args.length := fun h => hamp (List.mem_of_mem_drop h)
    simp only [value_function_call_rest_plain cfg _ _ hdrop]
    obtain ⟨key, rest, hkr⟩ : ∃ key rest, formals.drop args.length = key :: rest := by
      cases hd : formals.drop args.length with
      | nil =>
        have := congrArg List.length hd
        simp at this
        omega
      | cons key rest => exact ⟨key, rest, rfl⟩
    simp [hkr, Value.set_children]
  · intro key hkey
    rw [bind_formals_take, env_lookup_bind_formals_other cfg key _ args f_env hkey]
  · intro i key value hk hv hlast
    rw [bind_formals_take]
    have hi : i < args.length := by
      by_contra hge
      rw [List.getElem?_eq_none (Nat.le_of_not_lt hge)] at hv
      exact Option.noConfusion hv
    refine env_lookup_bind_formals_at cfg key value _ args f_env i htable ?_ hv ?_
    · rw [List.getElem?_take, if_pos hi]; exact hk
    · intro j hj
      by_cases hja : j < args.length
      · rw [List.getElem?_take, if_pos hja]; exact hlast j hj hja
      · rw [List.getElem?_take, if_neg hja]; exact Option.noConfusion

/-- C3 at `(\ {x y} {+ x y}) 10`, with an evaluator that never answers: the
call returns the lambda of the one formal `y` whose scope binds `x` to 10. -/
theorem value_function_call_curry_witness :
    "&" ∉ ["x", "y"]
    ∧ [Value.number (10 : ℚ)].length < ["x", "y"].length
    ∧ (env_alloc example_config).is_table example_config
    ∧ value_function_call example_config 0 (fun _ _ => none)
        (.lambda (env_alloc example_config) (.qexpression [.symbol "x", .symbol "y"])
          (.qexpression [.symbol "+", .symbol "x", .symbol "y"]))
        example_env [.number 10]
      = some (.lambda (env_set example_config (env_alloc example_config) "x" (.number 10))
          (.qexpression [.symbol "y"])
          (.qexpression [.symbol "+", .symbol "x", .symbol "y"]), example_env)
    ∧ env_lookup example_config
        (env_set example_config (env_alloc example_config) "x" (.number 10)) "x"
      = some (.number 10) :=
  have h := value_function_call_curry example_config 0 (fun _ _ => none)
    (env_alloc example_config) example_env ["x", "y"]
    (.qexpression [.symbol "+", .symbol "x", .symbol "y"]) [.number 10]
    (by decide) (by decide) env_alloc_is_table
  ⟨by decide, by decide, env_alloc_is_table, h.1,
    h.2.2 0 "x" (.number 10) rfl rfl (by intro j h1 h2; simp at h2; omega)⟩

/-- C4. Variadic binding: a lambda with the formals `{a & rest}`, called with
the arguments `value`, `values...` (at least one), returns what the
evaluation of its body, retagged as an S-expression, returns in the lambda's
scope after the binding, with the caller's environment as its parent. In that
scope `rest` is bound to the Q-expression of `values` in order (the empty one
when there is only one argument), `a` is bound to `value`, and every other
symbol is bound as in the captured scope. -/
theorem value_function_call_variadic [ValueNumber N] (cfg : Config N) (fuel : Nat)
    (ev : Eval N) (f_env env : Env N) (a rest : String) (body : List (Value N))
    (value : Value N) (values : List (Value N)) (ha : a ≠ "&")
    (htable : f_env.is_table cfg) :
    value_function_call cfg fuel ev
        (.lambda f_env (.qexpression [.symbol a, .symbol "&", .symbol rest])
          (.qexpression body)) env (value :: values)
      = leave_scope (ev (.sexpression body)
          ((env_set cfg (env_set cfg f_env a value) rest (.qexpression values)).set_parent env))
    ∧ env_lookup cfg
        ((env_set cfg (env_set cfg f_env a value) rest (.qexpression values)).set_parent env)
        rest = some (.qexpression values)
    ∧ (a ≠ rest →
        env_lookup cfg
          ((env_set cfg (env_set cfg f_env a value) rest (.qexpression values)).set_parent env)
          a = some value)
    ∧ (∀ key, key ≠ a → key ≠ rest →
        env_lookup cfg
          ((env_set cfg (env_set cfg f_env a value) rest (.qexpression values)).set_parent env)
          key = env_lookup cfg f_env key) := by
  have ht1 := env_set_is_table cfg f_env a value htable
  refine ⟨?_, ?_, ?_, ?_⟩
  · cases values with
    | nil =>
      simp [value_function_call, Value.children, value_function_call_loop,
        value_function_call_rest, ha, Value.as_sexpression, value_copy_eq,
        value_expression_alloc]
    | cons second others =>
      simp [value_function_call, Value.children, value_function_call_loop,
        value_function_call_rest, ha, Value.as_sexpression, value_copy_eq]
  · rw [env_lookup_set_parent, env_lookup_env_set_table cfg _ rest _ ht1]
  · intro hne
    rw [env_lookup_set_parent, env_lookup_env_set_other cfg _ rest a _ hne,
      env_lookup_env_set_table cfg _ a _ htable]
  · intro key h1 h2
    rw [env_lookup_set_parent, env_lookup_env_set_other cfg _ rest key _ h2,
      env_lookup_env_set_other cfg _ a key _ h1]

/-- C4 at `(\ {a & rest} {list a rest})`: called with `1 2 3 4` it returns
`{1 {2 3 4}}`, called with `1` it returns `{1 {}}`. -/
theorem value_function_call_variadic_witness :
    "a" ≠ "&"
    ∧ (env_alloc example_config).is_table example_config
    ∧ value_function_call example_config 2 (value_eval example_config 2)
        (.lambda (env_alloc example_config)
          (.qexpression [.symbol "a", .symbol "&", .symbol "rest"])
          (.qexpression [.symbol "list", .symbol "a", .symbol "rest"]))
        example_env [.number 1, .number 2, .number 3, .number 4]
      = some (.qexpression [.number 1, .qexpression [.number 2, .number 3, .number 4]],
          example_env)
    ∧ value_function_call example_config 2 (value_eval example_config 2)
        (.lambda (env_alloc example_config)
          (.qexpression [.symbol "a", .symbol "&", .symbol "rest"])
          (.qexpression [.symbol "list", .symbol "a", .symbol "rest"]))
        example_env [.number 1]
      = some (.qexpression [.number 1, .qexpression []], example_env) :=
  ⟨by decide, env_alloc_is_table,
    (value_function_call_variadic example_config 2 (value_eval example_config 2)
      (env_alloc example_config) example_env "a" "rest"
      [.symbol "list", .symbol "a", .symbol "rest"] (.number 1)
      [.number 2, .number 3, .number 4] (by decide) env_alloc_is_table).1.trans (by rfl),
    (value_function_call_variadic example_config 2 (value_eval example_config 2)
      (env_alloc example_config) example_env "a" "rest"
      [.symbol "list", .symbol "a", .symbol "rest"] (.number 1)
      [] (by decide) env_alloc_is_table).1.trans (by rfl)⟩

/-- C5 as stated fails: the lambda `(\ {a & rest} {rest})` called with no
argument returns the lambda itself, the line `((\ {a & rest} {rest}))`
evaluates to the same lambda, and a lambda is no error. -/
theorem value_function_call_no_args_counterexample :
    value_function_call example_config 1 (value_eval example_config 1)
        example_variadic example_env [] = some (example_variadic, example_env)
    ∧ value_eval example_config 3
        (.sexpression [.sexpression [.symbol "\\",
          .qexpression [.symbol "a", .symbol "&", .symbol "rest"],
          .qexpression [.symbol "rest"]]]) example_env
        = some (example_variadic, example_env)
    ∧ example_variadic.type ≠ .ERROR_TYPE :=
  ⟨by rfl, by rfl, by decide⟩

/-- C5, amended. A lambda with the formals `{a & rest}` called with an empty
argument list returns no error: `value_function_call` returns the lambda
itself, with its scope, formals and body as they were, and leaves the
environment as it was; and an S-expression whose only child evaluates to the
lambda evaluates to the lambda, which is not called. -/
theorem value_function_call_no_args [ValueNumber N] (cfg : Config N) (fuel : Nat)
    (ev : Eval N) (f_env env : Env N) (a rest : String) (body : Value N) (ha : a ≠ "&") :
    value_function_call cfg fuel ev
        (.lambda f_env (.qexpression [.symbol a, .symbol "&", .symbol rest]) body) env []
      = some (.lambda f_env (.qexpression [.symbol a, .symbol "&", .symbol rest]) body, env)
    ∧ (∀ (child : Value N) (env1 : Env N),
        value_eval cfg fuel child env
          = some (.lambda f_env (.qexpression [.symbol a, .symbol "&", .symbol rest]) body,
              env1) →
        value_eval cfg (fuel + 1) (.sexpression [child]) env
          = some (.lambda f_env (.qexpression [.symbol a, .symbol "&", .symbol rest]) body,
              env1)) := by
  constructor
  · simp [value_function_call, Value.children, value_function_call_loop,
      value_function_call_rest, ha, Value.set_children]
  · intro child env1 h
    rw [value_eval_single, h]

/-- C5, amended, at `(\ {a & rest} {rest})` with an evaluator that never
answers. -/
theorem value_function_call_no_args_witness :
    "a" ≠ "&"
    ∧ value_function_call example_config 0 (fun _ _ => none)
        (.lambda (env_alloc example_config)
          (.qexpression [.symbol "a", .symbol "&", .symbol "rest"])
          (.qexpression [.symbol "rest"])) example_env []
      = some (.lambda (env_alloc example_config)
          (.qexpression [.symbol "a", .symbol "&", .symbol "rest"])
          (.qexpression [.symbol "rest"]), example_env) :=
  ⟨by decide, (value_function_call_no_args example_config 0 (fun _ _ => none)
    (env_alloc example_config) example_env "a" "rest" (.qexpression [.symbol "rest"])
    (by decide)).1⟩

/-- C6. A lambda with `N` formals, none of them `&`, called with `M > N`
arguments returns the error `Too many args. Expected N. Got M.` (the error
buffer holding the message) and leaves the environment as it was, whatever
the evaluator would do with the body. -/
theorem value_function_call_too_many [ValueNumber N] (cfg : Config N) (fuel : Nat)
    (ev : Eval N) (f_env env : Env N) (formals : List String) (body : Value N)
    (args : List (Value N)) (hamp : "&" ∉ formals) (hargs : formals.length < args.length)
    (hbuf : cfg.holds ("Too many args. Expected " ++ toString formals.length
      ++ ". Got " ++ toString args.length ++ ".")) :
    value_function_call cfg fuel ev
        (.lambda f_env (.qexpression (formals.map .symbol)) body) env args
      = some (.error ("Too many args. Expected " ++ toString formals.length
          ++ ". Got " ++ toString args.length ++ "."), env) := by
  have h := value_function_call_loop_bind cfg formals.length args.length formals
    (args.take formals.length) [] (args.drop formals.length) f_env hamp
    (by simp [le_of_lt hargs])
  rw [List.append_nil, List.take_append_drop] at h
  obtain ⟨extra, others, hdrop⟩ : ∃ extra others, args.drop formals.length = extra :: others := by
    cases hd : args.drop formals.length with
    | nil =>
      have := congrArg List.length hd
      simp at this
      omega
    | cons extra others => exact ⟨extra, others, rfl⟩
  simp only [value_function_call, Value.children, List.length_map]
  rw [h, hdrop]
  simp [value_function_call_loop, value_error_alloc_holds cfg _ hbuf]

/-- C6 at `(\ {x y} {x}) 1 2 3`, with an evaluator that never answers. -/
theorem value_function_call_too_many_witness :
    "&" ∉ ["x", "y"]
    ∧ ["x", "y"].length < [Value.number (1 : ℚ), Value.number 2, Value.number 3].length
    ∧ example_config.holds "Too many args. Expected 2. Got 3."
    ∧ value_function_call example_config 0 (fun _ _ => none)
        (.lambda (env_alloc example_config) (.qexpression [.symbol "x", .symbol "y"])
          (.qexpression [.symbol "x"])) example_env [.number 1, .number 2, .number 3]
      = some (.error "Too many args. Expected 2. Got 3.", example_env) :=
  ⟨by decide, by decide, by unfold Config.holds; decide,
    value_function_call_too_many example_config 0 (fun _ _ => none)
      (env_alloc example_config) example_env ["x", "y"] (.qexpression [.symbol "x"])
      [.number 1, .number 2, .number 3] (by decide) (by decide)
      (by unfold Config.holds; decide)⟩

/-- C7. A lambda whose formals are `pre`, without `&`, then `&`, then `post`
with `post` not exactly one formal, called with at least as many arguments as
`pre` has formals, returns the error that `&` is not followed by a single
formal (the error buffer holding the message) and leaves the environment as
it was, whatever the evaluator would do with the body. -/
theorem value_function_call_rest_misused [ValueNumber N] (cfg : Config N) (fuel : Nat)
    (ev : Eval N) (f_env env : Env N) (pre post : List String) (body : Value N)
    (args : List (Value N)) (hamp : "&" ∉ pre) (hpost : post.length ≠ 1)
    (hargs : pre.length ≤ args.length)
    (hbuf : cfg.holds "`&` not followed by single formal") :
    value_function_call cfg fuel ev
        (.lambda f_env (.qexpression ((pre ++ "&" :: post).map .symbol)) body) env args
      = some (.error "`&` not followed by single formal", env) := by
  have h := value_function_call_loop_bind cfg (pre ++ "&" :: post).length args.length pre
    (args.take pre.length) (("&" :: post).map .symbol) (args.drop pre.length) f_env hamp
    (by simp [hargs])
  rw [List.take_append_drop, ← List.map_append] at h
  simp only [value_function_call, Value.children, List.length_map]
  rw [h]
  have hpost' : ∀ key : Value N, post.map Value.symbol ≠ [key] := by
    intro key hk
    have := congrArg List.length hk
    simp at this
    exact hpost this
  cases hd : args.drop pre.length with
  | nil =>
    simp only [List.map_cons, value_function_call_loop, value_function_call_rest, if_true]
    cases hp : post.map Value.symbol with
    | nil => simp [value_error_alloc_holds cfg _ hbuf]
    | cons p ps =>
      cases ps with
      | nil => exact absurd hp (hpost' p)
      | cons q qs => simp [value_error_alloc_holds cfg _ hbuf]
  | cons extra others =>
    simp only [List.map_cons, value_function_call_loop, if_true]
    cases hp : post.map Value.symbol with
    | nil => simp [value_error_alloc_holds cfg _ hbuf]
    | cons p ps =>
      cases ps with
      | nil => exact absurd hp (hpost' p)
      | cons q qs => simp [value_error_alloc_holds cfg _ hbuf]

/-- C7 at `(\ {x & y z} {x}) 1`, with an evaluator that never answers. -/
theorem value_function_call_rest_misused_witness :
    "&" ∉ ["x"]
    ∧ ["y", "z"].length ≠ 1
    ∧ ["x"].length ≤ [Value.number (1 : ℚ)].length
    ∧ example_config.holds "`&` not followed by single formal"
    ∧ value_function_call example_config 0 (fun _ _ => none)
        (.lambda (env_alloc example_config)
          (.qexpression [.symbol "x", .symbol "&", .symbol "y", .symbol "z"])
          (.qexpression [.symbol "x"])) example_env [.number 1]
      = some (.error "`&` not followed by single formal", example_env) :=
  ⟨by decide, by decide, by decide, by unfold Config.holds; decide,
    value_function_call_rest_misused example_config 0 (fun _ _ => none)
      (env_alloc example_config) example_env ["x"] ["y", "z"] (.qexpression [.symbol "x"])
      [.number 1] (by decide) (by decide) (by decide) (by unfold Config.holds; decide)⟩

/-! ## The evaluator: dispatch -/

/-- C8. When the children of an S-expression, at least two, all evaluate to
values that are no errors: if the value of the first child is a function, the
result is the call of that function on the values of the other children, in
order, in the environment the children left; if it is not, the result is the
error `()'s first child is not a function, but <type>.` with the type name of
that value (the error buffer holding the message). -/
theorem value_eval_calls_first_child [ValueNumber N] (cfg : Config N) (fuel : Nat)
    (children : List (Value N)) (env env1 : Env N) (first second : Value N)
    (others : List (Value N))
    (hchildren : EvaluatesTo (value_eval cfg fuel) children env (first :: second :: others) env1)
    (hbuf : first.type ≠ .FUNCTION_TYPE →
      cfg.holds ("()'s first child is not a function, but "
        ++ value_type_names first.type ++ ".")) :
    value_eval cfg (fuel + 1) (.sexpression children) env
      = if first.type = .FUNCTION_TYPE then
          value_function_call cfg fuel (value_eval cfg fuel) first env1 (second :: others)
        else
          some (.error ("()'s first child is not a function, but "
            ++ value_type_names first.type ++ "."), env1) := by
  rw [value_eval, value_sexpression_eval,
    value_sexpression_eval_children_evaluated _ hchildren]
  by_cases hf : first.type = .FUNCTION_TYPE
  · simp only [hf, if_true]
  · simp only [hf, if_false, value_error_alloc_holds cfg _ (hbuf hf)]

/-- C8 at `(1 2)` and at `(+ 1 2)`: the first is the error naming the type
Number, the second is the call of `+` on 1 and 2. -/
theorem value_eval_calls_first_child_witness :
    EvaluatesTo (value_eval example_config 1) [.number 1, .number 2] example_env
        [.number 1, .number 2] example_env
    ∧ example_config.holds "()'s first child is not a function, but Number."
    ∧ value_eval example_config 2 (.sexpression [.number 1, .number 2]) example_env
      = some (.error "()'s first child is not a function, but Number.", example_env)
    ∧ value_eval example_config 2 (.sexpression [.symbol "+", .number 1, .number 2])
        example_env
      = value_function_call example_config 1 (value_eval example_config 1)
          (.builtin .value_symbol_add_eval) example_env [.number 1, .number 2] :=
  have h : EvaluatesTo (value_eval example_config 1) [.number 1, .number 2] example_env
      [.number 1, .number 2] example_env :=
    .cons (by rfl) (by decide) (.cons (by rfl) (by decide) (.nil _))
  have h' : EvaluatesTo (value_eval example_config 1) [.symbol "+", .number 1, .number 2]
      example_env [.builtin .value_symbol_add_eval, .number 1, .number 2] example_env :=
    .cons (by rfl) (by decide) (.cons (by rfl) (by decide) (.cons (by rfl) (by decide) (.nil _)))
  ⟨h, by unfold Config.holds; decide,
    value_eval_calls_first_child example_config 1 _ _ _ _ _ _ h
      (fun _ => by unfold Config.holds; decide),
    value_eval_calls_first_child example_config 1 _ _ _ _ _ _ h'
      (fun hf => absurd rfl hf)⟩

/-- C9. An S-expression without children evaluates to the empty
S-expression. An S-expression with one child evaluates to what the child
evaluates to, value and environment: the value is returned as it is and is
not called, also when it is a function. -/
theorem value_eval_no_call [ValueNumber N] (cfg : Config N) (fuel : Nat)
    (child : Value N) (env : Env N) :
    value_eval cfg (fuel + 1) (.sexpression []) env = some (.sexpression [], env)
    ∧ value_eval cfg (fuel + 1) (.sexpression [child]) env = value_eval cfg fuel child env := by
  constructor
  · simp [value_eval, value_sexpression_eval, value_sexpression_eval_children]
  · exact value_eval_single cfg fuel child env

/-- C9 at `()` and at `(+)`: the first is `()`, the second is the builtin
`+` itself. -/
theorem value_eval_no_call_witness :
    value_eval example_config 1 (.sexpression []) example_env
      = some (.sexpression [], example_env)
    ∧ value_eval example_config 2 (.sexpression [.symbol "+"]) example_env
      = some (.builtin .value_symbol_add_eval, example_env) :=
  ⟨(value_eval_no_call example_config 0 (.symbol "+") example_env).1,
    (value_eval_no_call example_config 1 (.symbol "+") example_env).2.trans (by rfl)⟩

/-! ## Environments -/

/-- C11. `env_set` is the update of a finite map on the scope it is applied
to, a table of any positive size: afterwards the scope binds `k` to `v`; every
other symbol, also one of the same hash chain, is bound as it was before; the
scope has one cell more when `k` was not bound in it and as many cells as
before when it was, the old binding being replaced. `env_get` sees the same:
`v` for `k`, the old answer for every other symbol. -/
theorem env_set_finite_map (cfg : Config N) (env : Env N) (k : String) (v : Value N)
    (htable : env.is_table cfg) :
    env_lookup cfg (env_set cfg env k v) k = some v
    ∧ (∀ k', k' ≠ k → env_lookup cfg (env_set cfg env k v) k' = env_lookup cfg env k')
    ∧ (env_set cfg env k v).size
        = env.size + (if (env_lookup cfg env k).isSome then 0 else 1)
    ∧ env_get cfg (env_set cfg env k v) k = v
    ∧ (∀ k', k' ≠ k → env_get cfg (env_set cfg env k v) k' = env_get cfg env k')
    ∧ (env_set cfg env k v).is_table cfg :=
  ⟨env_lookup_env_set_table cfg env k v htable,
    fun k' h => env_lookup_env_set_other cfg env k k' v h,
    env_set_size cfg env k v htable,
    env_get_of_lookup cfg _ k v (env_lookup_env_set_table cfg env k v htable),
    fun k' h => env_get_env_set_other cfg env k k' v h,
    env_set_is_table cfg env k v htable⟩

/-- C11 in a table of 16 chains where `a` and `q` share a chain: after `a` is
set to 1 and `q` to 2 both are found, and setting `a` again leaves one cell. -/
theorem env_set_finite_map_witness :
    (env_set example_config (env_alloc example_config) "a" (.number 1)).is_table example_config
    ∧ env_entry_hash_key example_config "a" = env_entry_hash_key example_config "q"
    ∧ env_lookup example_config
        (env_set example_config
          (env_set example_config (env_alloc example_config) "a" (.number 1)) "q" (.number 2))
        "q" = some (.number 2)
    ∧ env_lookup example_config
        (env_set example_config
          (env_set example_config (env_alloc example_config) "a" (.number 1)) "q" (.number 2))
        "a" = some (.number 1)
    ∧ (env_set example_config
          (env_set example_config (env_alloc example_config) "a" (.number 1)) "a" (.number 3)).size
        = 1 :=
  have ht := env_set_is_table example_config _ "a" (.number 1) env_alloc_is_table
  have h := env_set_finite_map example_config
    (env_set example_config (env_alloc example_config) "a" (.number 1)) "q" (.number 2) ht
  have h' := env_set_finite_map example_config
    (env_set example_config (env_alloc example_config) "a" (.number 1)) "a" (.number 3) ht
  ⟨ht, by decide, h.1, (h.2.1 "a" (by decide)).trans (by rfl), h'.2.2.1.trans (by rfl)⟩

/-- C12. Shadowing: in a scope `c` that has a parent, the builtin `=` binds
`x` to `v1` in `c` and leaves the parent chain as it was; the builtin `def`
called from there binds `x` to `v2` in the root and leaves the table of every
other scope as it was. Afterwards `env_get` from `c` gives `v1` and `env_get`
from the root gives `v2`. -/
theorem value_symbol_variable_eval_shadowing [ValueNumber N] (cfg : Config N) (fuel : Nat)
    (ev : Eval N) (parent : Env N) (entries : List (List (String × Value N))) (x : String)
    (v1 v2 : Value N) (hc : (Env.mk (some parent) entries).is_table cfg)
    (hr : parent.root.is_table cfg) :
    value_builtin_call cfg fuel ev .value_symbol_set_eval [.qexpression [.symbol x], v1]
        (.mk (some parent) entries)
      = some (.sexpression [], env_set cfg (.mk (some parent) entries) x v1)
    ∧ value_builtin_call cfg fuel ev .value_symbol_def_eval [.qexpression [.symbol x], v2]
        (env_set cfg (.mk (some parent) entries) x v1)
      = some (.sexpression [],
          env_set_for_ancestor cfg (env_set cfg (.mk (some parent) entries) x v1) x v2)
    ∧ env_get cfg
        (env_set_for_ancestor cfg (env_set cfg (.mk (some parent) entries) x v1) x v2) x = v1
    ∧ env_get cfg
        (env_set_for_ancestor cfg (env_set cfg (.mk (some parent) entries) x v1) x v2).root x
        = v2
    ∧ (env_set cfg (.mk (some parent) entries) x v1).parent = some parent
    ∧ (env_set_for_ancestor cfg (env_set cfg (.mk (some parent) entries) x v1) x v2).tables.dropLast
        = (env_set cfg (.mk (some parent) entries) x v1).tables.dropLast
    ∧ (env_set_for_ancestor cfg (env_set cfg (.mk (some parent) entries) x v1) x v2).root
        = env_set cfg parent.root x v2 := by
  have hroot : (env_set_for_ancestor cfg (env_set cfg (.mk (some parent) entries) x v1) x v2).root
      = env_set cfg parent.root x v2 := by
    rw [env_set_for_ancestor_root, env_set_mk, Env.root]
  refine ⟨?_, ?_, ?_, ?_, ?_, env_set_for_ancestor_tables cfg x v2 _, hroot⟩
  · simp [value_builtin_call, value_symbol_variable_eval, value_symbol_variable_loop, Value.type]
  · simp [value_builtin_call, value_symbol_variable_eval, value_symbol_variable_loop, Value.type]
  · have hl := env_lookup_env_set_table cfg (.mk (some parent) entries) x v1 hc
    rw [env_set_mk] at hl ⊢
    rw [env_set_for_ancestor]
    apply env_get_of_lookup
    rw [← hl]
    rfl
  · rw [hroot]
    exact env_get_of_lookup cfg _ x v2 (env_lookup_env_set_table cfg _ x v2 hr)
  · rw [env_set_parent]; rfl

/-- C12 in a fresh scope below the top-level environment: after `= {x} 1` and
`def {x} 2` the scope reads 1 for `x` and the root reads 2. -/
theorem value_symbol_variable_eval_shadowing_witness :
    (Env.mk (some example_env) (List.replicate 16 []) : Env ℚ).is_table example_config
    ∧ example_env.root.is_table example_config
    ∧ env_get example_config
        (env_set_for_ancestor example_config
          (env_set example_config (.mk (some example_env) (List.replicate 16 [])) "x"
            (.number 1)) "x" (.number 2)) "x" = .number 1
    ∧ env_get example_config
        (env_set_for_ancestor example_config
          (env_set example_config (.mk (some example_env) (List.replicate 16 [])) "x"
            (.number 1)) "x" (.number 2)).root "x" = .number 2 :=
  have hc : (Env.mk (some example_env) (List.replicate 16 []) : Env ℚ).is_table
      example_config := ⟨by decide, by rfl⟩
  have hr : example_env.root.is_table example_config := ⟨by decide, by rfl⟩
  have h := value_symbol_variable_eval_shadowing example_config 0 (fun _ _ => none)
    example_env (List.replicate 16 []) "x" (.number 1) (.number 2) hc hr
  ⟨hc, hr, h.2.2.1, h.2.2.2.1⟩

/-! ## Builtins -/

/-- C13. The builtin `eval` applied to the one argument `{cs}` returns what
the evaluator returns for the S-expression `(cs)` in the same environment,
value and environment: so it does for `value_eval`. Applied to one argument
that is no Q-expression, or to a number of arguments other than one, it
returns an error and leaves the environment as it was. -/
theorem value_symbol_eval_eval_duality [ValueNumber N] (cfg : Config N) (fuel : Nat)
    (ev : Eval N) (env : Env N) :
    (∀ children : List (Value N),
      value_builtin_call cfg fuel ev .value_symbol_eval_eval [.qexpression children] env
        = ev (.sexpression children) env)
    ∧ (∀ children : List (Value N),
      value_builtin_call cfg fuel (value_eval cfg fuel) .value_symbol_eval_eval
          [.qexpression children] env
        = value_eval cfg fuel (.sexpression children) env)
    ∧ (∀ arg : Value N, arg.type ≠ .QEXPRESSION_TYPE →
      ∃ e, value_builtin_call cfg fuel ev .value_symbol_eval_eval [arg] env
        = some (.error e, env))
    ∧ (∀ args : List (Value N), args.length ≠ 1 →
      ∃ e, value_builtin_call cfg fuel ev .value_symbol_eval_eval args env
        = some (.error e, env)) := by
  refine ⟨fun _ => rfl, fun _ => rfl, ?_, ?_⟩
  · intro arg harg
    cases arg <;>
      simp [value_builtin_call, value_symbol_eval_eval, arg_type_error, value_error_alloc,
        Value.type] at harg ⊢
  · intro args hargs
    match args, hargs with
    | [], _ => simp [value_builtin_call, value_symbol_eval_eval, args_count_error,
        value_error_alloc]
    | [_], h => simp at h
    | _ :: _ :: _, _ => simp [value_builtin_call, value_symbol_eval_eval, args_count_error,
        value_error_alloc]

/-- C13 at `eval {+ 1 2}`: the number 3. -/
theorem value_symbol_eval_eval_duality_witness :
    value_builtin_call example_config 2 (value_eval example_config 2) .value_symbol_eval_eval
        [.qexpression [.symbol "+", .number 1, .number 2]] example_env
      = some (.number 3, example_env) := by
  rw [(value_symbol_eval_eval_duality example_config 2 (value_eval example_config 2)
    example_env).1]
  have h : value_eval example_config 2 (.sexpression [.symbol "+", .number 1, .number 2])
      example_env = some (.number (1 + 2), example_env) := by rfl
  rw [h]
  norm_num

/-- C14. The builtin `list` returns the Q-expression of its arguments, the
same values in the same order, for every argument list; it returns no error
and leaves the environment as it was. So an S-expression whose children
evaluate to `list` and to the values `a b c ...` evaluates to `{a b c ...}`. -/
theorem value_symbol_list_eval_quotes [ValueNumber N] (cfg : Config N) (fuel : Nat)
    (ev : Eval N) (args : List (Value N)) (env : Env N) :
    value_builtin_call cfg fuel ev .value_symbol_list_eval args env
      = some (.qexpression args, env)
    ∧ (∀ (children : List (Value N)) (first : Value N) (others : List (Value N))
        (env1 : Env N),
        EvaluatesTo (value_eval cfg fuel) children env
          (.builtin .value_symbol_list_eval :: first :: others) env1 →
        value_eval cfg (fuel + 1) (.sexpression children) env
          = some (.qexpression (first :: others), env1)) := by
  refine ⟨rfl, ?_⟩
  intro children first others env1 h
  rw [value_eval, value_sexpression_eval, value_sexpression_eval_children_evaluated _ h]
  rfl

/-- C14 at `list 1 + {x}`: the Q-expression of 1, the builtin `+` and `{x}`. -/
theorem value_symbol_list_eval_quotes_witness :
    value_eval example_config 2
        (.sexpression [.symbol "list", .number 1, .symbol "+", .qexpression [.symbol "x"]])
        example_env
      = some (.qexpression [.number 1, .builtin .value_symbol_add_eval,
          .qexpression [.symbol "x"]], example_env) :=
  (value_symbol_list_eval_quotes example_config 1 (value_eval example_config 1) [] example_env).2
    _ _ _ _
    (.cons (by rfl) (by decide) (.cons (by rfl) (by decide) (.cons (by rfl) (by decide)
      (.cons (by rfl) (by decide) (.nil _)))))

/-- C15. On the Numbers `x, xs...` the builtins `+` and `*` return the left
fold of the operator over `xs` starting from `x`, which is `x` itself for a
single operand; the builtin `-` returns the negation of `x` for a single
operand and the left fold of the subtraction otherwise. The environment is
left as it was. -/
theorem value_symbol_arithmetic_eval_fold [ValueNumber N] (cfg : Config N) (fuel : Nat)
    (ev : Eval N) (x : N) (xs : List N) (env : Env N) :
    value_builtin_call cfg fuel ev .value_symbol_add_eval (.number x :: xs.map .number) env
      = some (.number (xs.foldl ValueNumber.add x), env)
    ∧ value_builtin_call cfg fuel ev .value_symbol_multiply_eval
        (.number x :: xs.map .number) env
      = some (.number (xs.foldl ValueNumber.mul x), env)
    ∧ value_builtin_call cfg fuel ev .value_symbol_substract_eval
        (.number x :: xs.map .number) env
      = some (.number (if xs.isEmpty then ValueNumber.neg x else xs.foldl ValueNumber.sub x),
          env) := by
  have hv : ∀ symbol, validate_arg_types cfg symbol .NUMBER_TYPE 0
      (.number x :: xs.map .number) = none := fun symbol =>
    validate_arg_types_numbers cfg symbol (x :: xs) 0
  refine ⟨?_, ?_, ?_⟩
  · simp [value_builtin_call, value_symbol_arithmetic_eval, hv,
      value_symbol_arithmetic_loop_add]
  · simp [value_builtin_call, value_symbol_arithmetic_eval, hv,
      value_symbol_arithmetic_loop_mul]
  · cases xs with
    | nil => simp [value_builtin_call, value_symbol_arithmetic_eval, validate_arg_types,
        Value.type, value_symbol_arithmetic_loop]
    | cons y ys =>
      have := value_symbol_arithmetic_loop_sub cfg (y :: ys) x
      simp only [List.map_cons] at this hv
      simp [value_builtin_call, value_symbol_arithmetic_eval, hv, this]

/-- C15 at `+ 1 2 3`, the number 6, as a call and as the evaluator reads the
line, and at `- 5`, the number -5. -/
theorem value_symbol_arithmetic_eval_fold_witness :
    value_builtin_call example_config 0 (fun _ _ => none) .value_symbol_add_eval
        [.number 1, .number 2, .number 3] example_env = some (.number 6, example_env)
    ∧ value_builtin_call example_config 0 (fun _ _ => none) .value_symbol_substract_eval
        [.number 5] example_env = some (.number (-5), example_env)
    ∧ value_eval example_config 2 (.sexpression [.symbol "+", .number 1, .number 2, .number 3])
        example_env = some (.number 6, example_env) := by
  have h := value_symbol_arithmetic_eval_fold example_config 0 (fun _ _ => none) (1 : ℚ) [2, 3]
    example_env
  have h' := value_symbol_arithmetic_eval_fold example_config 0 (fun _ _ => none) (5 : ℚ) []
    example_env
  refine ⟨?_, ?_, ?_⟩
  · refine h.1.trans ?_
    simp [ValueNumber.add]
    norm_num
  · refine h'.2.2.trans ?_
    simp [ValueNumber.neg]
  · have h2 : value_eval example_config 2
        (.sexpression [.symbol "+", .number 1, .number 2, .number 3]) example_env
        = some (.number (1 + 2 + 3), example_env) := by rfl
    rw [h2]
    norm_num

/-- C16. On the Numbers `x, xs...` the builtin `/` returns the error
`Division by zero.` (the error buffer holding the message) when some operand
behind the first compares equal to 0, and the Number of the left fold of the
division otherwise: so the error comes exactly when such an operand exists,
whatever the first operand is. -/
theorem value_symbol_divide_eval_by_zero [ValueNumber N] (cfg : Config N) (fuel : Nat)
    (ev : Eval N) (x : N) (xs : List N) (env : Env N)
    (hbuf : cfg.holds "Division by zero.") :
    value_builtin_call cfg fuel ev .value_symbol_divide_eval (.number x :: xs.map .number) env
      = if xs.any (fun y => ValueNumber.eq y ValueNumber.zero) then
          some (.error "Division by zero.", env)
        else some (.number (xs.foldl ValueNumber.div x), env) := by
  have hv := validate_arg_types_numbers cfg "/" (x :: xs) 0
  have hl := value_symbol_arithmetic_loop_div cfg xs x
  simp only [List.map_cons] at hv
  simp only [value_builtin_call, value_symbol_arithmetic_eval, hv]
  have hne : ¬ ("/" = "-" ∧ (xs.map (Value.number : N → Value N)).length = 0) := by
    intro h
    exact absurd h.1 (by decide)
  rw [if_neg hne, hl, value_error_alloc_holds cfg _ hbuf]
  split <;> rfl

/-- C16 at `/ 1 0`, the error, and at `/ 0 4`, the number 0. -/
theorem value_symbol_divide_eval_by_zero_witness :
    example_config.holds "Division by zero."
    ∧ value_builtin_call example_config 0 (fun _ _ => none) .value_symbol_divide_eval
        [.number 1, .number 0] example_env = some (.error "Division by zero.", example_env)
    ∧ value_builtin_call example_config 0 (fun _ _ => none) .value_symbol_divide_eval
        [.number 0, .number 4] example_env = some (.number 0, example_env) := by
  have hb : example_config.holds "Division by zero." := by unfold Config.holds; decide
  have h := value_symbol_divide_eval_by_zero example_config 0 (fun _ _ => none) (1 : ℚ) [0]
    example_env hb
  have h' := value_symbol_divide_eval_by_zero example_config 0 (fun _ _ => none) (0 : ℚ) [4]
    example_env hb
  refine ⟨hb, ?_, ?_⟩
  · refine h.trans ?_
    simp [ValueNumber.eq, ValueNumber.zero]
  · refine h'.trans ?_
    simp [ValueNumber.eq, ValueNumber.zero, ValueNumber.div]

/-- C17, the code at `|| 5 0`: the chain stops at the first operand and
returns it as it is, the number 5, which is neither 0 nor 1; `|| 0 5`, which
looks at the second operand, returns 1. -/
theorem value_symbol_or_eval_first_operand :
    value_builtin_call example_config 0 (fun _ _ => none) .value_symbol_or_eval
        [.number 5, .number 0] example_env = some (.number 5, example_env)
    ∧ value_eval example_config 2 (.sexpression [.symbol "||", .number 5, .number 0])
        example_env = some (.number 5, example_env)
    ∧ (5 : ℚ) ≠ 0 ∧ (5 : ℚ) ≠ 1
    ∧ value_builtin_call example_config 0 (fun _ _ => none) .value_symbol_or_eval
        [.number 0, .number 5] example_env = some (.number 1, example_env) := by
  refine ⟨?_, ?_, by norm_num, by norm_num, ?_⟩
  · simp [value_builtin_call, value_symbol_condition_chain_eval,
      value_symbol_condition_chain_loop, number_true, ValueNumber.eq, ValueNumber.zero]
  · have h : value_eval example_config 2 (.sexpression [.symbol "||", .number 5, .number 0])
        example_env
        = some (value_symbol_condition_chain_eval example_config "||" [.number 5, .number 0],
            example_env) := by rfl
    rw [h]
    simp [value_symbol_condition_chain_eval,
      value_symbol_condition_chain_loop, number_true, ValueNumber.eq, ValueNumber.zero]
  · simp [value_builtin_call, value_symbol_condition_chain_eval,
      value_symbol_condition_chain_loop, number_true, number_of_bool, ValueNumber.eq,
      ValueNumber.zero, ValueNumber.one]

/-- C18 as stated fails: `&& 0 "a"` returns the number 0, although its second
argument is a String. -/
theorem value_symbol_and_eval_counterexample :
    value_builtin_call example_config 0 (fun _ _ => none) .value_symbol_and_eval
        [.number 0, .string "a"] example_env = some (.number 0, example_env)
    ∧ (Value.string "a" : Value ℚ).type ≠ .NUMBER_TYPE
    ∧ (Value.number 0 : Value ℚ).type ≠ .ERROR_TYPE := by
  refine ⟨?_, by decide, by decide⟩
  simp [value_builtin_call, value_symbol_condition_chain_eval,
    value_symbol_condition_chain_loop, number_true, ValueNumber.eq, ValueNumber.zero]

/-- C18, amended. Take an argument list of at least two values whose first
argument that is no Number, `bad`, stands behind the Numbers `pre`, in a
number type where 1 is true and 0 is false. When no Number of `pre` stops the
chain (all are nonzero for `&&`, all are zero for `||`), the builtin returns
the error naming itself, the position of `bad`, the expected type Number and
the type of `bad` (the error buffer holding the message). When a Number of
`pre` stops the chain, the arguments behind it are not looked at and the
builtin returns a Number. -/
theorem value_symbol_condition_chain_eval_type_error [ValueNumber N] (cfg : Config N)
    (fuel : Nat) (ev : Eval N) (pre : List N) (bad : Value N) (post : List (Value N))
    (env : Env N)
    (hone : number_true (ValueNumber.one : N) = true)
    (hzero : number_true (ValueNumber.zero : N) = false)
    (hbad : bad.type ≠ .NUMBER_TYPE) (hlen : 2 ≤ pre.length + 1 + post.length)
    (hand : cfg.holds ("&&: Invalid " ++ toString pre.length
      ++ " argument type. Expected Number. Got " ++ value_type_names bad.type ++ "."))
    (hor : cfg.holds ("||: Invalid " ++ toString pre.length
      ++ " argument type. Expected Number. Got " ++ value_type_names bad.type ++ ".")) :
    ((∀ x ∈ pre, number_true x = true) →
      value_builtin_call cfg fuel ev .value_symbol_and_eval
          (pre.map .number ++ bad :: post) env
        = some (.error ("&&: Invalid " ++ toString pre.length
            ++ " argument type. Expected Number. Got " ++ value_type_names bad.type ++ "."),
            env))
    ∧ ((∀ x ∈ pre, number_true x = false) →
      value_builtin_call cfg fuel ev .value_symbol_or_eval
          (pre.map .number ++ bad :: post) env
        = some (.error ("||: Invalid " ++ toString pre.length
            ++ " argument type. Expected Number. Got " ++ value_type_names bad.type ++ "."),
            env))
    ∧ ((∃ x ∈ pre, number_true x = false) →
      ∃ n : N, value_builtin_call cfg fuel ev .value_symbol_and_eval
          (pre.map .number ++ bad :: post) env = some (.number n, env))
    ∧ ((∃ x ∈ pre, number_true x = true) →
      ∃ n : N, value_builtin_call cfg fuel ev .value_symbol_or_eval
          (pre.map .number ++ bad :: post) env = some (.number n, env)) := by
  have hA := value_symbol_condition_chain_eval_reaches cfg "&&" false (by decide) (by decide)
    hone hzero pre bad post hbad hlen
  have hO := value_symbol_condition_chain_eval_reaches cfg "||" true (by decide) (by decide)
    hone hzero pre bad post hbad hlen
  refine ⟨?_, ?_, ?_, ?_⟩
  · intro h
    have := hA.1 (by simpa using h)
    simp only [value_builtin_call, this, arg_type_error_number]
    rw [show ("&&" ++ ": Invalid " : String) = "&&: Invalid " from rfl,
      value_error_alloc_holds cfg _ hand]
  · intro h
    have := hO.1 (by simpa using h)
    simp only [value_builtin_call, this, arg_type_error_number]
    rw [show ("||" ++ ": Invalid " : String) = "||: Invalid " from rfl,
      value_error_alloc_holds cfg _ hor]
  · intro h
    obtain ⟨n, hn⟩ := hA.2 h
    exact ⟨n, by simp only [value_builtin_call, hn]⟩
  · intro h
    obtain ⟨n, hn⟩ := hO.2 h
    exact ⟨n, by simp only [value_builtin_call, hn]⟩

/-- C18, amended, at `&& 1 "a"`, the error for argument 1, and at
`|| 1 "a"`, a Number. -/
theorem value_symbol_condition_chain_eval_type_error_witness :
    number_true (ValueNumber.one : ℚ) = true
    ∧ number_true (ValueNumber.zero : ℚ) = false
    ∧ (Value.string "a" : Value ℚ).type ≠ .NUMBER_TYPE
    ∧ 2 ≤ [(1 : ℚ)].length + 1 + ([] : List (Value ℚ)).length
    ∧ example_config.holds "&&: Invalid 1 argument type. Expected Number. Got String."
    ∧ example_config.holds "||: Invalid 1 argument type. Expected Number. Got String."
    ∧ (∀ x ∈ [(1 : ℚ)], number_true x = true)
    ∧ value_builtin_call example_config 0 (fun _ _ => none) .value_symbol_and_eval
        [.number 1, .string "a"] example_env
      = some (.error "&&: Invalid 1 argument type. Expected Number. Got String.", example_env)
    ∧ ∃ n : ℚ, value_builtin_call example_config 0 (fun _ _ => none) .value_symbol_or_eval
        [.number 1, .string "a"] example_env = some (.number n, example_env) := by
  have h1 : ∀ x ∈ [(1 : ℚ)], number_true x = true := by
    intro x hx
    rw [List.mem_singleton.mp hx]
    exact number_true_one_rat
  have hb1 : example_config.holds "&&: Invalid 1 argument type. Expected Number. Got String." := by
    unfold Config.holds; decide
  have hb2 : example_config.holds "||: Invalid 1 argument type. Expected Number. Got String." := by
    unfold Config.holds; decide
  have h := value_symbol_condition_chain_eval_type_error example_config 0 (fun _ _ => none)
    [(1 : ℚ)] (.string "a") [] example_env number_true_one_rat number_true_zero_rat
    (by decide) (by decide) hb1 hb2
  exact ⟨number_true_one_rat, number_true_zero_rat, by decide, by decide, hb1, hb2, h1,
    h.1 h1, h.2.2.2 ⟨1, by simp, number_true_one_rat⟩⟩

/-- C19, the code at `if 0 {+ 1 2} ()` and `if 1 {+ 1 2} ()`: the third
argument, an S-expression and no Q-expression, is not rejected; the first
line evaluates it and returns `()`, the second evaluates the other branch and
returns 3. -/
theorem value_symbol_if_eval_third_argument :
    value_eval example_config 3
        (.sexpression [.symbol "if", .number 0,
          .qexpression [.symbol "+", .number 1, .number 2], .sexpression []])
        example_env = some (.sexpression [], example_env)
    ∧ value_builtin_call example_config 2 (value_eval example_config 2) .value_symbol_if_eval
        [.number 0, .qexpression [.symbol "+", .number 1, .number 2], .sexpression []]
        example_env = some (.sexpression [], example_env)
    ∧ value_builtin_call example_config 2 (value_eval example_config 2) .value_symbol_if_eval
        [.number 1, .qexpression [.symbol "+", .number 1, .number 2], .sexpression []]
        example_env = some (.number 3, example_env)
    ∧ (Value.sexpression [] : Value ℚ).type ≠ .QEXPRESSION_TYPE
    ∧ (Value.sexpression [] : Value ℚ).type ≠ .ERROR_TYPE := by
  refine ⟨?_, ?_, ?_, by decide, by decide⟩
  · have h : value_eval example_config 3
        (.sexpression [.symbol "if", .number 0,
          .qexpression [.symbol "+", .number 1, .number 2], .sexpression []])
        example_env
        = value_symbol_if_eval example_config (value_eval example_config 2)
            [.number 0, .qexpression [.symbol "+", .number 1, .number 2], .sexpression []]
            example_env := by rfl
    rw [h]
    simp [value_symbol_if_eval, Value.as_sexpression, number_true, ValueNumber.eq,
      ValueNumber.zero]
    rfl
  · simp [value_builtin_call, value_symbol_if_eval, Value.as_sexpression, number_true,
      ValueNumber.eq, ValueNumber.zero]
    rfl
  · simp [value_builtin_call, value_symbol_if_eval, Value.as_sexpression, number_true,
      ValueNumber.eq, ValueNumber.zero]
    have h : value_eval example_config 2 (.sexpression [.symbol "+", .number 1, .number 2])
        example_env = some (.number (1 + 2), example_env) := by rfl
    rw [h]
    norm_num

/-- C20. The builtin `if` applied to a Number and the Q-expressions `{t}` and
`{e}` returns what the evaluator returns for `(t)` when the Number is nonzero
and what it returns for `(e)` when the Number is zero, value and environment:
the other branch is not handed to the evaluator. -/
theorem value_symbol_if_eval_branch [ValueNumber N] (cfg : Config N) (fuel : Nat)
    (ev : Eval N) (condition : N) (first second : List (Value N)) (env : Env N) :
    value_builtin_call cfg fuel ev .value_symbol_if_eval
        [.number condition, .qexpression first, .qexpression second] env
      = if number_true condition then ev (.sexpression first) env
        else ev (.sexpression second) env := by
  simp [value_builtin_call, value_symbol_if_eval, Value.as_sexpression]

/-- C20 at `if (== 1 1) {+ 1 2} {+ 3 4}`: the call on the evaluated
arguments, and the line as the evaluator reads it, give the number 3. -/
theorem value_symbol_if_eval_branch_witness :
    value_builtin_call example_config 2 (value_eval example_config 2) .value_symbol_if_eval
        [.number 1, .qexpression [.symbol "+", .number 1, .number 2],
          .qexpression [.symbol "+", .number 3, .number 4]] example_env
      = some (.number 3, example_env)
    ∧ value_eval example_config 3
        (.sexpression [.symbol "if", .sexpression [.symbol "==", .number 1, .number 1],
          .qexpression [.symbol "+", .number 1, .number 2],
          .qexpression [.symbol "+", .number 3, .number 4]]) example_env
      = some (.number 3, example_env) := by
  have hthen : value_eval example_config 2 (.sexpression [.symbol "+", .number 1, .number 2])
      example_env = some (.number (1 + 2), example_env) := by rfl
  have hcall : value_builtin_call example_config 2 (value_eval example_config 2)
      .value_symbol_if_eval
      [.number 1, .qexpression [.symbol "+", .number 1, .number 2],
        .qexpression [.symbol "+", .number 3, .number 4]] example_env
      = some (.number 3, example_env) := by
    rw [value_symbol_if_eval_branch, hthen]
    simp [number_true, ValueNumber.eq, ValueNumber.zero]
    norm_num
  refine ⟨hcall, ?_⟩
  have hcond : value_eval example_config 2 (.sexpression [.symbol "==", .number 1, .number 1])
      example_env = some (.number 1, example_env) := by
    have h : value_eval example_config 2 (.sexpression [.symbol "==", .number 1, .number 1])
        example_env
        = some (value_symbol_cmp_eval example_config "==" [.number 1, .number 1],
            example_env) := by rfl
    rw [h]
    simp [value_symbol_cmp_eval, value_eq, number_of_bool, ValueNumber.eq, ValueNumber.one]
  have hargs : EvaluatesTo (value_eval example_config 2)
      [.symbol "if", .sexpression [.symbol "==", .number 1, .number 1],
        .qexpression [.symbol "+", .number 1, .number 2],
        .qexpression [.symbol "+", .number 3, .number 4]] example_env
      [.builtin .value_symbol_if_eval, .number 1,
        .qexpression [.symbol "+", .number 1, .number 2],
        .qexpression [.symbol "+", .number 3, .number 4]] example_env :=
    .cons (by rfl) (by decide) (.cons hcond (by decide) (.cons (by rfl) (by decide)
      (.cons (by rfl) (by decide) (.nil _))))
  rw [value_eval, value_sexpression_eval, value_sexpression_eval_children_evaluated _ hargs]
  exact hcall

/-! ## Builtins: `while`, `head`, `tail`, `join` -/

/-- C21. The builtin `while` on two Q-expressions `{condition}` and `{body}`,
both evaluated as S-expressions. Suppose that, from `env` on, the condition
evaluates `n` times running to a Number that is not zero, the body being
evaluated after each of them: round `i` starts in `before i`, its condition
gives `numbers i` and leaves `after i`, its body gives `values i` and leaves
`before (i + 1)`. Given fuel for more than `n` rounds: when the next
evaluation of the condition gives a Number that is zero, `while` returns the
value of the last evaluation of the body, `values (n - 1)`, if `n ≥ 1` and the
empty S-expression if `n = 0`; when it gives a value that is not a Number,
`while` returns an Error (the one that names the type found). In both cases
the environment is the one that last evaluation of the condition left. -/
theorem value_symbol_while_eval_rounds [ValueNumber N] (cfg : Config N) (fuel : Nat)
    (ev : Eval N) (condition body : List (Value N)) (env env_last : Env N) (n : Nat)
    (numbers : Nat → N) (values : Nat → Value N) (before after : Nat → Env N)
    (hstart : before 0 = env)
    (hrounds : ∀ i : Nat, i < n →
      ev (.sexpression condition) (before i) = some (.number (numbers i), after i)
      ∧ number_true (numbers i) = true
      ∧ ev (.sexpression body) (after i) = some (values i, before (i + 1)))
    (hfuel : n < fuel) :
    (∀ number : N,
      ev (.sexpression condition) (before n) = some (.number number, env_last) →
      number_true number = false →
      value_builtin_call cfg fuel ev .value_symbol_while_eval
          [.qexpression condition, .qexpression body] env
        = some (if n = 0 then .sexpression [] else values (n - 1), env_last))
    ∧ (∀ other : Value N,
      ev (.sexpression condition) (before n) = some (other, env_last) →
      other.type ≠ .NUMBER_TYPE →
      value_builtin_call cfg fuel ev .value_symbol_while_eval
          [.qexpression condition, .qexpression body] env
        = some (value_error_alloc cfg
            ("while: Condition isn't a number, but " ++ value_type_names other.type ++ "."),
          env_last)) := by
  obtain ⟨rest, rfl⟩ : ∃ rest, fuel = n + (rest + 1) := ⟨fuel - n - 1, by omega⟩
  have h := value_symbol_while_loop_rounds cfg ev (.sexpression condition) (.sexpression body)
    (rest + 1) n numbers values before after (value_expression_alloc .SEXPRESSION_TYPE) hrounds
  rw [hstart] at h
  simp only [value_builtin_call, value_symbol_while_eval]
  rw [h, value_symbol_while_loop]
  simp only [value_copy_eq]
  constructor
  · intro number hc hz
    simp [hc, hz, value_expression_alloc]
  · intro other hc ht
    rw [hc]
    cases other <;> first | rfl | exact absurd rfl ht

/-- C21 at `while {x} {list (= {x} 0) 5}` with `x` set to 1, evaluated by
`value_eval`: one round, whose body sets `x` to 0 and gives `{() 5}`, then the
condition gives 0, and `while` returns `{() 5}`. And at `while {"a"} {1}`: the
first condition is a String, and `while` returns an Error. -/
theorem value_symbol_while_eval_rounds_witness :
    value_builtin_call example_config 9 (value_eval example_config 9) .value_symbol_while_eval
        [.qexpression [.symbol "x"],
          .qexpression [.symbol "list",
            .sexpression [.symbol "=", .qexpression [.symbol "x"], .number 0], .number 5]]
        example_while_env
      = some (.qexpression [.sexpression [], .number 5],
          env_set example_config example_while_env "x" (.number 0))
    ∧ value_builtin_call example_config 9 (value_eval example_config 9)
        .value_symbol_while_eval
        [.qexpression [.string "a"], .qexpression [.number 1]] example_while_env
      = some (.error "while: Condition isn't a number, but String.", example_while_env) :=
  ⟨(value_symbol_while_eval_rounds example_config 9 (value_eval example_config 9)
      [.symbol "x"]
      [.symbol "list", .sexpression [.symbol "=", .qexpression [.symbol "x"], .number 0],
        .number 5]
      example_while_env (env_set example_config example_while_env "x" (.number 0)) 1
      (fun _ => 1) (fun _ => .qexpression [.sexpression [], .number 5])
      (fun i => if i = 0 then example_while_env
        else env_set example_config example_while_env "x" (.number 0))
      (fun _ => example_while_env) rfl
      (by
        intro i hi
        obtain rfl : i = 0 := by omega
        exact ⟨by rfl, number_true_one_rat, by rfl⟩)
      (by decide)).1 0 (by rfl) number_true_zero_rat,
   (value_symbol_while_eval_rounds example_config 9 (value_eval example_config 9)
      [.string "a"] [.number 1] example_while_env example_while_env 0
      (fun _ => 0) (fun _ => .sexpression []) (fun _ => example_while_env)
      (fun _ => example_while_env) rfl (fun i hi => absurd hi (Nat.not_lt_zero i))
      (by decide)).2 (.string "a") (by rfl) (by decide)⟩

/-- C22. `head` on an empty argument. Evaluated in the top-level environment,
`(head {})` and `(head "")` have no defined result: the argument list, already
freed when its child was taken out, is freed again on the way to the error
`head: Argument is empty.`. On an argument that is not empty the call returns:
`(head {1 2 3})` is `{1}` and `(head "abc")` is `"a"`. -/
theorem value_symbol_head_eval_empty :
    value_eval example_config 2 (.sexpression [.symbol "head", .qexpression []]) example_env
      = none
    ∧ value_eval example_config 2 (.sexpression [.symbol "head", .string ""]) example_env
      = none
    ∧ value_eval example_config 2
        (.sexpression [.symbol "head", .qexpression [.number 1, .number 2, .number 3]])
        example_env
      = some (.qexpression [.number 1], example_env)
    ∧ value_eval example_config 2 (.sexpression [.symbol "head", .string "abc"]) example_env
      = some (.string "a", example_env) :=
  ⟨by rfl, by rfl, by rfl, by rfl⟩

/-- C23. `tail` on an empty argument and on a String. Evaluated in the
top-level environment, `(tail {})` and `(tail "")` have no defined result (the
argument list is freed twice, as in `head`), and neither has `(tail "abc")`,
whose String is returned with a pointer that cannot be freed. On a
Q-expression that is not empty the call returns, `(tail {1 2 3})` is `{2 3}`,
and on another type it returns an Error. -/
theorem value_symbol_tail_eval_empty :
    value_eval example_config 2 (.sexpression [.symbol "tail", .qexpression []]) example_env
      = none
    ∧ value_eval example_config 2 (.sexpression [.symbol "tail", .string ""]) example_env
      = none
    ∧ value_eval example_config 2 (.sexpression [.symbol "tail", .string "abc"]) example_env
      = none
    ∧ value_eval example_config 2
        (.sexpression [.symbol "tail", .qexpression [.number 1, .number 2, .number 3]])
        example_env
      = some (.qexpression [.number 2, .number 3], example_env)
    ∧ value_eval example_config 2 (.sexpression [.symbol "tail", .number 1]) example_env
      = some (.error "tail: Invalid arg type. Expected: Qexpression or String. Got: Number.",
          example_env) :=
  ⟨by rfl, by rfl, by rfl, by rfl, by rfl⟩

/-- C24. The builtin `join` on at least two arguments. When all of them are
Q-expressions it returns the Q-expression of all their children, in the order
of the arguments, whose length is the sum of their lengths; when all of them
are Strings it returns the String of their characters in that order; when
they are neither all Q-expressions nor all Strings it returns an Error. The
environment is left as it was. -/
theorem value_symbol_join_eval_concatenates [ValueNumber N] (cfg : Config N) (fuel : Nat)
    (ev : Eval N) (env : Env N) :
    (∀ children : List (List (Value N)), 2 ≤ children.length →
      value_builtin_call cfg fuel ev .value_symbol_join_eval (children.map .qexpression) env
        = some (.qexpression children.flatten, env)
      ∧ children.flatten.length = (children.map List.length).sum)
    ∧ (∀ strings : List String, 2 ≤ strings.length →
      value_builtin_call cfg fuel ev .value_symbol_join_eval (strings.map .string) env
        = some (.string (String.join strings), env))
    ∧ (∀ args : List (Value N), 2 ≤ args.length →
      ¬ (∀ arg ∈ args, arg.type = .QEXPRESSION_TYPE) →
      ¬ (∀ arg ∈ args, arg.type = .STRING_TYPE) →
      ∃ message, value_builtin_call cfg fuel ev .value_symbol_join_eval args env
        = some (.error message, env)) := by
  refine ⟨?_, ?_, ?_⟩
  · intro children hlen
    refine ⟨?_, List.length_flatten _⟩
    match children, hlen with
    | first :: second :: others, _ =>
      have hall : ∀ arg ∈ (first :: second :: others).map (.qexpression : _ → Value N),
          arg.type = .QEXPRESSION_TYPE := by
        intro arg harg
        obtain ⟨c, _, rfl⟩ := List.mem_map.1 harg
        rfl
      have hloop := value_symbol_join_loop_children (second :: others) first (N := N)
      simp only [List.map_cons] at hall hloop
      simp only [value_builtin_call, value_symbol_join_eval, List.map_cons, Value.type,
        if_true, validate_arg_types_all cfg "join" .QEXPRESSION_TYPE _ 0 hall, hloop]
      simp
  · intro strings hlen
    match strings, hlen with
    | first :: second :: others, _ =>
      have hall : ∀ arg ∈ (first :: second :: others).map (.string : _ → Value N),
          arg.type = .STRING_TYPE := by
        intro arg harg
        obtain ⟨c, _, rfl⟩ := List.mem_map.1 harg
        rfl
      have hloop := value_symbol_join_loop_string (second :: others) first (N := N)
      simp only [List.map_cons] at hall hloop
      simp only [value_builtin_call, value_symbol_join_eval, List.map_cons, Value.type,
        validate_arg_types_all cfg "join" .STRING_TYPE _ 0 hall, hloop]
      simp [String.join]
  · intro args hlen hq hs
    match args, hlen with
    | first :: second :: others, _ =>
      simp only [value_builtin_call, value_symbol_join_eval]
      by_cases hfirst : first.type = .QEXPRESSION_TYPE
      · obtain ⟨message, h⟩ := validate_arg_types_some cfg "join" .QEXPRESSION_TYPE _ 0 hq
        rw [if_pos hfirst, h]
        exact ⟨message, rfl⟩
      · obtain ⟨message, h⟩ := validate_arg_types_some cfg "join" .STRING_TYPE _ 0 hs
        rw [if_neg hfirst, h]
        exact ⟨message, rfl⟩

/-- C24 at `join {1 2} {3 4}`, which is `{1 2 3 4}`, at
`join "ab" "cd" "ef"`, which is `"abcdef"`, and at `join {1} "a"`, an
Error. -/
theorem value_symbol_join_eval_concatenates_witness :
    value_builtin_call example_config 0 (fun _ _ => none) .value_symbol_join_eval
        [.qexpression [.number 1, .number 2], .qexpression [.number 3, .number 4]] example_env
      = some (.qexpression [.number 1, .number 2, .number 3, .number 4], example_env)
    ∧ value_builtin_call example_config 0 (fun _ _ => none) .value_symbol_join_eval
        [.string "ab", .string "cd", .string "ef"] example_env
      = some (.string "abcdef", example_env)
    ∧ ∃ message, value_builtin_call example_config 0 (fun _ _ => none) .value_symbol_join_eval
        [.qexpression [.number 1], .string "a"] example_env
      = some (.error message, example_env) :=
  have h := value_symbol_join_eval_concatenates example_config 0 (fun _ _ => none) example_env
  ⟨(h.1 [[.number 1, .number 2], [.number 3, .number 4]] (by decide)).1,
    h.2.1 ["ab", "cd", "ef"] (by decide),
    h.2.2 [.qexpression [.number 1], .string "a"] (by decide)
      (fun hall => absurd (hall (.string "a") (by simp)) (by decide))
      (fun hall => absurd (hall (.qexpression [.number 1]) (by simp)) (by decide))⟩

/-! ## Equality, argument counts, printing -/

/-- C25. The builtins `==` and `!=` on two values `a` and `b`: `==` returns
the Number 1 when `value_eq` finds them equal and 0 when not, `!=` the
opposite, and the environment is left as it was. The equality `value_eq` is
structural: equal values have the same type; two Numbers are equal when the C
operator `==` finds them so; two Strings, and two Symbols, when they are the
same text; two S-expressions, and two Q-expressions, when they have the same
number of children and the children at the same position are equal; two
builtins when they are the same function; two lambdas when their formals are
equal and their bodies are equal, whatever their captured environments; a
builtin and a lambda never. -/
theorem value_symbol_cmp_eval_structural [ValueNumber N] (cfg : Config N) (fuel : Nat)
    (ev : Eval N) (env : Env N) :
    (∀ a b : Value N,
      value_builtin_call cfg fuel ev .value_symbol_eq_eval [a, b] env
        = some (.number (if value_eq a b then ValueNumber.one else ValueNumber.zero), env)
      ∧ value_builtin_call cfg fuel ev .value_symbol_ne_eval [a, b] env
        = some (.number (if value_eq a b then ValueNumber.zero else ValueNumber.one), env))
    ∧ (∀ a b : Value N, value_eq a b = true → a.type = b.type)
    ∧ (∀ x y : N, value_eq (.number x) (.number y) = ValueNumber.eq x y)
    ∧ (∀ x y : String, value_eq (.string x : Value N) (.string y) = true ↔ x = y)
    ∧ (∀ x y : String, value_eq (.symbol x : Value N) (.symbol y) = true ↔ x = y)
    ∧ (∀ xs ys : List (Value N),
        value_eq (.sexpression xs) (.sexpression ys) = true
          ↔ xs.length = ys.length ∧ ∀ pair ∈ xs.zip ys, value_eq pair.1 pair.2 = true)
    ∧ (∀ xs ys : List (Value N),
        value_eq (.qexpression xs) (.qexpression ys) = true
          ↔ xs.length = ys.length ∧ ∀ pair ∈ xs.zip ys, value_eq pair.1 pair.2 = true)
    ∧ (∀ x y : ValueBuiltin, value_eq (.builtin x : Value N) (.builtin y) = true ↔ x = y)
    ∧ (∀ (x_env y_env : Env N) (x_formals x_body y_formals y_body : Value N),
        value_eq (.lambda x_env x_formals x_body) (.lambda y_env y_formals y_body)
          = (value_eq x_formals y_formals && value_eq x_body y_body))
    ∧ (∀ (x : ValueBuiltin) (y_env : Env N) (y_formals y_body : Value N),
        value_eq (.builtin x) (.lambda y_env y_formals y_body) = false
        ∧ value_eq (.lambda y_env y_formals y_body) (.builtin x) = false) := by
  refine ⟨?_, value_eq_type, ?_, ?_, ?_, ?_, ?_, ?_, ?_, ?_⟩
  · intro a b
    constructor
    · cases h : value_eq a b <;>
        simp [value_builtin_call, value_symbol_cmp_eval, number_of_bool, h]
    · cases h : value_eq a b <;>
        simp [value_builtin_call, value_symbol_cmp_eval, number_of_bool, h]
  · intro x y; simp [value_eq]
  · intro x y; simp [value_eq]
  · intro x y; simp [value_eq]
  · intro xs ys; rw [value_eq, value_eq_children_iff]
  · intro xs ys; rw [value_eq, value_eq_children_iff]
  · intro x y; simp [value_eq]
  · intro _ _ _ _ _ _; simp [value_eq]
  · intro _ _ _ _; simp [value_eq]

/-- C25 at `== {a "s"} {a "s"}`, which is 1, and at `!=` on the builtin
`head` and a lambda, which is 1 as well. -/
theorem value_symbol_cmp_eval_structural_witness :
    value_builtin_call example_config 0 (fun _ _ => none) .value_symbol_eq_eval
        [.qexpression [.symbol "a", .string "s"], .qexpression [.symbol "a", .string "s"]]
        example_env
      = some (.number 1, example_env)
    ∧ value_builtin_call example_config 0 (fun _ _ => none) .value_symbol_ne_eval
        [.builtin .value_symbol_head_eval,
          .lambda (env_alloc example_config) (.qexpression []) (.qexpression [])]
        example_env
      = some (.number 1, example_env) :=
  have h := (value_symbol_cmp_eval_structural example_config 0 (fun _ _ => none)
    example_env).1
  ⟨(h (.qexpression [.symbol "a", .string "s"]) (.qexpression [.symbol "a", .string "s"])).1,
    (h (.builtin .value_symbol_head_eval)
      (.lambda (env_alloc example_config) (.qexpression []) (.qexpression []))).2⟩

/-- C26. With fewer arguments than a builtin of fixed arity expects, the
message still reads `Too many arguments`: evaluated in the top-level
environment, `(== 1)`, `(if 1)`, `(while {0})` and `(\ {x})` return the errors
`==: Too many arguments. Expected 2. Got 1.` and so on, where the claim has
`Too few`. -/
theorem args_count_error_too_few :
    value_eval example_config 2 (.sexpression [.symbol "==", .number 1]) example_env
      = some (.error "==: Too many arguments. Expected 2. Got 1.", example_env)
    ∧ value_eval example_config 2 (.sexpression [.symbol "if", .number 1]) example_env
      = some (.error "if: Too many arguments. Expected 3. Got 1.", example_env)
    ∧ value_eval example_config 2 (.sexpression [.symbol "while", .qexpression [.number 0]])
        example_env
      = some (.error "while: Too many arguments. Expected 2. Got 1.", example_env)
    ∧ value_eval example_config 2 (.sexpression [.symbol "\\", .qexpression [.symbol "x"]])
        example_env
      = some (.error "\\: Too many arguments. Expected 2. Got 1.", example_env) :=
  ⟨by rfl, by rfl, by rfl, by rfl⟩

/-- C27. What `value_print` writes for an expression: the opening bracket,
what it writes for each child, in order, with one space between two
neighbours and none before the first or after the last, and the closing
bracket; the brackets are `(` and `)` for an S-expression, `\x7b` and `\x7d`
for a Q-expression. The empty S-expression is written `()`, the empty
Q-expression `\x7b\x7d`. -/
theorem value_print_expression [ValueNumber N] (cfg : Config N) (children : List (Value N)) :
    value_print cfg (.sexpression children)
      = "(" ++ " ".intercalate (children.map (value_print cfg)) ++ ")"
    ∧ value_print cfg (.qexpression children)
      = "\x7b" ++ " ".intercalate (children.map (value_print cfg)) ++ "\x7d"
    ∧ value_print cfg (.sexpression []) = "()"
    ∧ value_print cfg (.qexpression []) = "\x7b\x7d" := by
  refine ⟨?_, ?_, ?_, ?_⟩
  · rw [value_print, value_expression_print_loop_eq]
  · rw [value_print, value_expression_print_loop_eq]
  · rfl
  · rfl

/-- C27 at the Q-expression of the symbol `a`, the S-expression `(b "c")` and
the empty Q-expression. -/
theorem value_print_expression_witness :
    value_print example_config
        (.qexpression [.symbol "a", .sexpression [.symbol "b", .string "c"], .qexpression []])
      = "\x7ba (b \"c\") \x7b\x7d\x7d" := by
  rw [(value_print_expression example_config _).2.1]
  decide

/-! ## Relations between the operations -/

/-- C28. Partial application agrees with full application. A lambda whose
formals hold no `&` is called with as many arguments as it has formals. For
every `k` smaller than that number, the call with the first `k` arguments
returns a function `g` and leaves the caller's environment as it was, and the
call of `g` with the other arguments, in that environment, has the outcome of
the one call with all the arguments: the same value and the same
environment (and no outcome when that call has none). -/
theorem value_function_call_split [ValueNumber N] (cfg : Config N) (fuel : Nat)
    (ev : Eval N) (f_env env : Env N) (formals : List String) (body : Value N)
    (args : List (Value N)) (k : Nat) (hamp : "&" ∉ formals)
    (hargs : args.length = formals.length) (hk : k < formals.length) :
    ∃ g : Value N,
      value_function_call cfg fuel ev
          (.lambda f_env (.qexpression (formals.map .symbol)) body) env (args.take k)
        = some (g, env)
      ∧ value_function_call cfg fuel ev g env (args.drop k)
        = value_function_call cfg fuel ev
            (.lambda f_env (.qexpression (formals.map .symbol)) body) env args := by
  have hlen : (args.take k).length = k := by
    rw [List.length_take, hargs]; omega
  have hdrop : "&" ∉ formals.drop k := fun h => hamp (List.mem_of_mem_drop h)
  refine ⟨.lambda (bind_formals cfg f_env formals (args.take k))
    (.qexpression ((formals.drop k).map .symbol)) body, ?_, ?_⟩
  · simp only [value_function_call, Value.children, List.length_map]
    rw [value_function_call_loop_all_args cfg _ _ formals (args.take k) f_env hamp
      (by rw [hlen]; omega), hlen]
    simp only [value_function_call_rest_plain cfg _ _ hdrop]
    obtain ⟨key, rest, hkr⟩ : ∃ key rest, formals.drop k = key :: rest := by
      cases hd : formals.drop k with
      | nil =>
        have := congrArg List.length hd
        simp at this
        omega
      | cons key rest => exact ⟨key, rest, rfl⟩
    simp [hkr, Value.set_children]
  · simp only [value_function_call, Value.children, List.length_map]
    rw [value_function_call_loop_all_args cfg _ _ (formals.drop k) (args.drop k) _ hdrop
      (by simp [hargs]),
      value_function_call_loop_all_args cfg _ _ formals args f_env hamp (le_of_eq hargs),
      bind_formals_split]
    have h1 : List.drop (args.drop k).length (formals.drop k) = [] := by
      apply List.drop_eq_nil_of_le; simp [hargs]
    have h2 : List.drop args.length formals = [] := by
      apply List.drop_eq_nil_of_le; simp [hargs]
    rw [h1, h2]
    simp [value_function_call_rest]

/-- C28 at `(\ {x y z} {list z y x})` with the arguments 1, 2, 3 and `k = 1`,
evaluated by `value_eval`: both ways give `{3 2 1}`. -/
theorem value_function_call_split_witness :
    "&" ∉ ["x", "y", "z"]
    ∧ [Value.number (1 : ℚ), .number 2, .number 3].length = ["x", "y", "z"].length
    ∧ 1 < ["x", "y", "z"].length
    ∧ (∃ g : Value ℚ,
        value_function_call example_config 4 (value_eval example_config 4)
            (.lambda (env_alloc example_config)
              (.qexpression (["x", "y", "z"].map .symbol))
              (.qexpression [.symbol "list", .symbol "z", .symbol "y", .symbol "x"]))
            example_env ([.number 1, .number 2, .number 3].take 1)
          = some (g, example_env)
        ∧ value_function_call example_config 4 (value_eval example_config 4) g example_env
            ([.number 1, .number 2, .number 3].drop 1)
          = value_function_call example_config 4 (value_eval example_config 4)
              (.lambda (env_alloc example_config)
                (.qexpression (["x", "y", "z"].map .symbol))
                (.qexpression [.symbol "list", .symbol "z", .symbol "y", .symbol "x"]))
              example_env [.number 1, .number 2, .number 3])
    ∧ value_function_call example_config 4 (value_eval example_config 4)
        (.lambda (env_alloc example_config)
          (.qexpression (["x", "y", "z"].map .symbol))
          (.qexpression [.symbol "list", .symbol "z", .symbol "y", .symbol "x"]))
        example_env [.number 1, .number 2, .number 3]
      = some (.qexpression [.number 3, .number 2, .number 1], example_env) :=
  ⟨by decide, rfl, by decide,
    value_function_call_split example_config 4 (value_eval example_config 4)
      (env_alloc example_config) example_env ["x", "y", "z"]
      (.qexpression [.symbol "list", .symbol "z", .symbol "y", .symbol "x"])
      [.number 1, .number 2, .number 3] 1 (by decide) rfl (by decide),
    by rfl⟩

/-- C29. A copy is structurally equal to its original. For a value with no
NaN among its numbers (those of the formals and bodies of lambdas included),
`value_eq` finds the value and its `value_copy` equal; the copy has the type
of the value and as many children; and the copy of a lambda is a lambda whose
captured environment has the parent of the original's and binds every symbol
as the original's does. -/
theorem value_copy_structurally_equal [ValueNumber N] (cfg : Config N) (value : Value N)
    (hnan : value.nan_free = true) :
    value_eq value (value_copy value) = true
    ∧ (value_copy value).type = value.type
    ∧ (value_copy value).children.map List.length = value.children.map List.length
    ∧ (∀ (env : Env N) (formals body : Value N), value = .lambda env formals body →
        ∃ (env_copied : Env N) (formals_copied body_copied : Value N),
          value_copy value = .lambda env_copied formals_copied body_copied
          ∧ env_copied.parent = env.parent
          ∧ ∀ key : String, env_lookup cfg env_copied key = env_lookup cfg env key) := by
  rw [value_copy_eq]
  refine ⟨value_eq_self value hnan, rfl, rfl, ?_⟩
  intro env formals body h
  exact ⟨env, formals, body, h, rfl, fun _ => rfl⟩

/-- C29 at the lambda `(\ {y} {+ x y 2})` whose captured environment binds
`x` to 1. -/
theorem value_copy_structurally_equal_witness :
    (Value.lambda (env_set example_config (env_alloc example_config) "x" (.number 1))
        (.qexpression [.symbol "y"])
        (.qexpression [.symbol "+", .symbol "x", .symbol "y", .number 2])
      : Value ℚ).nan_free = true
    ∧ value_eq
        (Value.lambda (env_set example_config (env_alloc example_config) "x" (.number 1))
          (.qexpression [.symbol "y"])
          (.qexpression [.symbol "+", .symbol "x", .symbol "y", .number 2])
          : Value ℚ)
        (value_copy
          (.lambda (env_set example_config (env_alloc example_config) "x" (.number 1))
            (.qexpression [.symbol "y"])
            (.qexpression [.symbol "+", .symbol "x", .symbol "y", .number 2]))) = true :=
  ⟨by rfl,
    (value_copy_structurally_equal example_config
      (.lambda (env_set example_config (env_alloc example_config) "x" (.number 1))
        (.qexpression [.symbol "y"])
        (.qexpression [.symbol "+", .symbol "x", .symbol "y", .number 2]))
      (by rfl)).1⟩

/-- C30. `join (head s) (tail s)` on a String. Evaluated in the top-level
environment, `(join (head "ab") (tail "ab"))` has no defined result: `tail`
returns its String with a pointer moved off the start of the allocation, and
`join` frees it. On the Q-expression `{1 2 3}` the same expression returns
`{1 2 3}`. -/
theorem value_symbol_tail_eval_string_join :
    value_eval example_config 3
        (.sexpression [.symbol "join", .sexpression [.symbol "head", .string "ab"],
          .sexpression [.symbol "tail", .string "ab"]]) example_env
      = none
    ∧ value_eval example_config 3
        (.sexpression [.symbol "join",
          .sexpression [.symbol "head", .qexpression [.number 1, .number 2, .number 3]],
          .sexpression [.symbol "tail", .qexpression [.number 1, .number 2, .number 3]]])
        example_env
      = some (.qexpression [.number 1, .number 2, .number 3], example_env) :=
  ⟨by rfl, by rfl⟩

/-! ## Definitions: `def` and `=` -/

/-- C31. Definition is atomic on error. The builtins `=` and `def`, on any
arguments and in any environment, return a value and an environment. The
value is an Error exactly when there are fewer than two arguments, or the
first argument is not a Q-expression, or a child of the first argument is not
a Symbol, or the number of children of the first argument is not the number
of the other arguments; with an Error the environment returned is the one
given, so that no scope of the chain is changed. A value that is not an Error
is the empty S-expression; the first argument then lists symbols, as many as
there are values, and in the scope the builtin binds in (the scope of the
call for `=`, the root of the chain for `def`; a table is assumed there)
symbol `i` is bound to value `i`, the last one of equal symbols counting. -/
theorem value_symbol_variable_eval_atomic [ValueNumber N] (cfg : Config N) (fuel : Nat)
    (ev : Eval N) (builtin : ValueBuiltin) (symbol : String)
    (hb : (builtin = .value_symbol_set_eval ∧ symbol = "=")
      ∨ (builtin = .value_symbol_def_eval ∧ symbol = "def"))
    (args : List (Value N)) (env : Env N) :
    ∃ (value : Value N) (env_after : Env N),
      value_builtin_call cfg fuel ev builtin args env = some (value, env_after)
      ∧ (value.type = .ERROR_TYPE
          ↔ args.length < 2
            ∨ (∃ first rest, args = first :: rest ∧ first.type ≠ .QEXPRESSION_TYPE)
            ∨ (∃ symbols rest, args = .qexpression symbols :: rest
                ∧ ∃ s ∈ symbols, s.type ≠ .SYMBOL_TYPE)
            ∨ (∃ symbols rest, args = .qexpression symbols :: rest
                ∧ symbols.length ≠ rest.length))
      ∧ (value.type = .ERROR_TYPE → env_after = env)
      ∧ (value.type ≠ .ERROR_TYPE →
          value = .sexpression []
          ∧ ∃ (keys : List String) (values : List (Value N)),
              args = .qexpression (keys.map .symbol) :: values
              ∧ keys.length = values.length
              ∧ ((binding_scope symbol env).is_table cfg →
                  ∀ (i : Nat) (key : String) (bound : Value N),
                    keys[i]? = some key → values[i]? = some bound →
                    (∀ j : Nat, i < j → keys[j]? ≠ some key) →
                    env_lookup cfg (binding_scope symbol env_after) key = some bound)) := by
  rcases hb with ⟨rfl, rfl⟩ | ⟨rfl, rfl⟩
  · obtain ⟨value, env_after, h, rest⟩ :=
      value_symbol_variable_eval_cases cfg "=" (Or.inl rfl) args env
    exact ⟨value, env_after, by rw [value_builtin_call, h], rest⟩
  · obtain ⟨value, env_after, h, rest⟩ :=
      value_symbol_variable_eval_cases cfg "def" (Or.inr rfl) args env
    exact ⟨value, env_after, by rw [value_builtin_call, h], rest⟩

/-- C31 at `= {a b a} 1 2 3` in the top-level environment, which returns `()`
and leaves `a` bound to 3 and `b` to 2; at `def {x} 7` called in a scope below
the top-level environment, which returns `()` and binds `x` to 7 in the root;
and at `def {a b} 1`, which returns an Error and the environment it was
given. -/
theorem value_symbol_variable_eval_atomic_witness :
    (∃ env_after : Env ℚ,
      value_builtin_call example_config 0 (fun _ _ => none) .value_symbol_set_eval
          [.qexpression [.symbol "a", .symbol "b", .symbol "a"], .number 1, .number 2,
            .number 3] example_env
        = some (.sexpression [], env_after)
      ∧ env_lookup example_config env_after "a" = some (.number 3)
      ∧ env_lookup example_config env_after "b" = some (.number 2))
    ∧ (∃ env_after : Env ℚ,
      value_builtin_call example_config 0 (fun _ _ => none) .value_symbol_def_eval
          [.qexpression [.symbol "x"], .number 7] (.mk (some example_env) (List.replicate 16 []))
        = some (.sexpression [], env_after)
      ∧ env_lookup example_config env_after.root "x" = some (.number 7))
    ∧ (∃ value : Value ℚ,
      value_builtin_call example_config 0 (fun _ _ => none) .value_symbol_def_eval
          [.qexpression [.symbol "a", .symbol "b"], .number 1] example_env
        = some (value, example_env)
      ∧ value.type = .ERROR_TYPE) := by
  refine ⟨?_, ?_, ?_⟩
  · obtain ⟨value, env_after, hcall, -, -, hok⟩ :=
      value_symbol_variable_eval_atomic example_config 0 (fun _ _ => none)
        .value_symbol_set_eval "=" (Or.inl ⟨rfl, rfl⟩)
        [.qexpression [.symbol "a", .symbol "b", .symbol "a"], .number 1, .number 2, .number 3]
        example_env
    have hvalue : value = .sexpression [] := by
      have hc : value_builtin_call example_config 0 (fun _ _ => none) .value_symbol_set_eval
          [.qexpression [.symbol "a", .symbol "b", .symbol "a"], .number 1, .number 2,
            .number 3] example_env
          = some (.sexpression [],
              value_symbol_variable_loop example_config "="
                [.symbol "a", .symbol "b", .symbol "a"] [.number 1, .number 2, .number 3]
                example_env) := by rfl
      rw [hc] at hcall
      exact (congrArg Prod.fst (Option.some.inj hcall)).symm
    subst hvalue
    obtain ⟨-, keys, values, hargs, -, hbound⟩ := hok (by simp [Value.type])
    simp only [List.cons.injEq, Value.qexpression.injEq] at hargs
    obtain ⟨hkeys, rfl⟩ := hargs
    have hk : keys = ["a", "b", "a"] :=
      List.map_injective_iff.2 (fun _ _ h => Value.symbol.inj h)
        (show keys.map (Value.symbol : String → Value ℚ) = ["a", "b", "a"].map .symbol
          from hkeys.symm)
    subst hk
    have ht := hbound example_env_is_table
    exact ⟨env_after, hcall,
      ht 2 "a" (.number 3) rfl rfl (by intro j hj; match j, hj with | j + 3, _ => simp),
      ht 1 "b" (.number 2) rfl rfl
        (by intro j hj; match j, hj with | 2, _ => simp | j + 3, _ => simp)⟩
  · obtain ⟨value, env_after, hcall, -, -, hok⟩ :=
      value_symbol_variable_eval_atomic example_config 0 (fun _ _ => none)
        .value_symbol_def_eval "def" (Or.inr ⟨rfl, rfl⟩)
        [.qexpression [.symbol "x"], .number 7] (.mk (some example_env) (List.replicate 16 []))
    have hvalue : value = .sexpression [] := by
      have hc : value_builtin_call example_config 0 (fun _ _ => none) .value_symbol_def_eval
          [.qexpression [.symbol "x"], .number 7]
          (.mk (some example_env) (List.replicate 16 []))
          = some (.sexpression [],
              value_symbol_variable_loop example_config "def" [.symbol "x"] [.number 7]
                (.mk (some example_env) (List.replicate 16 []))) := by rfl
      rw [hc] at hcall
      exact (congrArg Prod.fst (Option.some.inj hcall)).symm
    subst hvalue
    obtain ⟨-, keys, values, hargs, -, hbound⟩ := hok (by simp [Value.type])
    simp only [List.cons.injEq, Value.qexpression.injEq] at hargs
    obtain ⟨hkeys, rfl⟩ := hargs
    have hk : keys = ["x"] :=
      List.map_injective_iff.2 (fun _ _ h => Value.symbol.inj h)
        (show keys.map (Value.symbol : String → Value ℚ) = ["x"].map .symbol from hkeys.symm)
    subst hk
    exact ⟨env_after, hcall,
      hbound example_env_is_table 0 "x" (.number 7) rfl rfl
        (by intro j hj; match j, hj with | j + 1, _ => simp)⟩
  · obtain ⟨value, env_after, hcall, herror, hsame, -⟩ :=
      value_symbol_variable_eval_atomic example_config 0 (fun _ _ => none)
        .value_symbol_def_eval "def" (Or.inr ⟨rfl, rfl⟩)
        [.qexpression [.symbol "a", .symbol "b"], .number 1] example_env
    have htype : value.type = .ERROR_TYPE :=
      herror.2 (Or.inr (Or.inr (Or.inr ⟨_, _, rfl, by decide⟩)))
    rw [hsame htype] at hcall
    exact ⟨value, hcall, htype⟩

end Clisp
